import Mathlib

/-!
OMS bidder adapter (adapters/oms/oms.go)

A shallow embedding of the OMS adapter of prebid-server: `Builder`,
`MakeRequests`, `MakeBids`, `getBidType` and `getBidVideo`, followed by the
properties proved about them.

Conventions of the embedding.

* Go `string` is `String`; Go `[]byte` / `json.RawMessage` is `Bytes`, a list
  of octets, so that `len` of a byte slice is `List.length`.
* Go `int` and `int64` values are `Int`.  The adapter compares them with
  constants and prints them, and never does arithmetic on them, so no wrap
  around can occur.
* The declared duration of a bid is a rational number, and the Go conversion
  `int(bid.Dur)` is rounding toward zero (`int`).
* Pointer arguments are taken to be non-nil and are embedded as values in
  `MakeRequests` and `MakeBids`.  `MakeBidsHeap` is `MakeBids` on an explicit
  heap, where the receiver and the arguments are addresses and every
  allocation and every write through a pointer is a heap operation.
* A Go run-time fault (the index read `request.Imp[0]` on an empty slice) is
  the `Except.error` side of the result of `MakeRequests`.
* The JSON primitives `json.Marshal` and `jsonutil.Unmarshal` are outside the
  adapter; they are the fields of a `JsonCodec` that every operation takes as
  an argument.  Both are deterministic functions of their input (the target
  of each `Unmarshal` call is a fresh zero value).  `wireUnmarshalBidResponse`
  is the decoder of the inbound wire format that the spec describes.
-/

namespace OMS

/-! ## Data model -/

/-- Go byte slice. -/
abbrev Bytes := List (Fin 256)

/-- The fields of `openrtb2.Imp` that the adapter reads. -/
structure Imp where
  ID : String
  Ext : Bytes
deriving DecidableEq, Repr

/-- The fields of `openrtb2.BidRequest` that the adapter reads. -/
structure BidRequest where
  ID : String
  Imp : List Imp
deriving DecidableEq, Repr

/-- Go type `genericPID`. -/
structure genericPID where
  Pid : String
  PublisherID : Int
deriving DecidableEq, Repr

/-- Go type `pbsExt`. -/
structure pbsExt where
  Bidder : genericPID
  Tid : String
deriving DecidableEq, Repr

/-- Go type `adapter`. -/
structure adapter where
  endpoint : String
deriving DecidableEq, Repr

/-- The field of `config.Adapter` that `Builder` reads. -/
structure Adapter where
  Endpoint : String
deriving DecidableEq, Repr

/-- Stand-in for `config.Server`, which `Builder` ignores. -/
structure Server where
  ExternalUrl : String
deriving DecidableEq, Repr

/-- Stand-in for `adapters.ExtraRequestInfo`, which `MakeRequests` ignores. -/
structure ExtraRequestInfo where
  PbsEntryPoint : String
deriving DecidableEq, Repr

/-- Go type `adapters.RequestData` (the fields the adapter sets). -/
structure RequestData where
  Method : String
  Uri : String
  Body : Bytes
  ImpIDs : List String
deriving DecidableEq, Repr

/-- Go type `adapters.ResponseData` (the fields the adapter reads). -/
structure ResponseData where
  StatusCode : Int
  Body : Bytes
deriving DecidableEq, Repr

/-- Go type `openrtb2.MarkupType`, an `int64`. -/
abbrev MarkupType := Int

/-- Constant `openrtb2.MarkupBanner`. -/
def MarkupBanner : MarkupType := 1
/-- Constant `openrtb2.MarkupVideo`. -/
def MarkupVideo : MarkupType := 2
/-- Constant `openrtb2.MarkupAudio`. -/
def MarkupAudio : MarkupType := 3
/-- Constant `openrtb2.MarkupNative`. -/
def MarkupNative : MarkupType := 4

/-- Modelled from the spec: the declaration of `openrtb2.Bid` is not part of
the adapter source.  These are the fields the adapter reads, with the
identifiers that tell two bids apart.  The spec gives the wire field `dur` as
a "number" and the duration as "the bid's declared duration (truncated to whole
seconds if fractional)", so `Dur` is a rational number; a declaration of `Dur`
as an integer type is the special case of whole numbers. -/
structure Bid where
  ID : String
  ImpID : String
  MType : MarkupType
  Dur : ℚ
  Cat : List String
deriving DecidableEq, Repr

/-- Go type `openrtb2.SeatBid`. -/
structure SeatBid where
  Bid : List Bid
  Seat : String
deriving DecidableEq, Repr

/-- Go type `openrtb2.BidResponse`. -/
structure BidResponse where
  ID : String
  SeatBid : List SeatBid
  Cur : String
deriving DecidableEq, Repr

/-- Go type `openrtb_ext.BidType`, a string type. -/
abbrev BidType := String

/-- Constant `openrtb_ext.BidTypeBanner`. -/
def BidTypeBanner : BidType := "banner"
/-- Constant `openrtb_ext.BidTypeVideo`. -/
def BidTypeVideo : BidType := "video"
/-- Constant `openrtb_ext.BidTypeAudio`. -/
def BidTypeAudio : BidType := "audio"
/-- Constant `openrtb_ext.BidTypeNative`. -/
def BidTypeNative : BidType := "native"

/-- Go type `openrtb_ext.ExtBidPrebidVideo`. -/
structure ExtBidPrebidVideo where
  Duration : Int
  PrimaryCategory : String
deriving DecidableEq, Repr

/-- Go type `adapters.TypedBid` (the fields the adapter sets). -/
structure TypedBid where
  Bid : Bid
  BidType : BidType
  BidVideo : Option ExtBidPrebidVideo
deriving DecidableEq, Repr

/-- Go type `adapters.BidderResponse`. -/
structure BidderResponse where
  Currency : String
  Bids : List TypedBid
deriving DecidableEq, Repr

/-- An error value produced by the JSON primitives. -/
structure JsonError where
  msg : String
deriving DecidableEq, Repr

/-- The Go `error` values the adapter can return: an error handed back by a
JSON primitive, `*errortypes.BadInput` and `*errortypes.BadServerResponse`. -/
inductive GoError where
  | json (err : JsonError)
  | BadInput (Message : String)
  | BadServerResponse (Message : String)
deriving DecidableEq, Repr

/-- A Go run-time fault. -/
inductive Panic where
  | indexOutOfRange (index : Nat) (length : Nat)
deriving DecidableEq, Repr

/-- The JSON primitives the adapter calls. -/
structure JsonCodec where
  /-- Go `json.Marshal(request)`. -/
  Marshal : BidRequest → Except JsonError Bytes
  /-- Go `jsonutil.Unmarshal(data, &ext)` into a zero `pbsExt`. -/
  UnmarshalExt : Bytes → Except JsonError pbsExt
  /-- Go `jsonutil.Unmarshal(data, &response)` into a zero `openrtb2.BidResponse`. -/
  UnmarshalBidResponse : Bytes → Except JsonError BidResponse

/-! ## Library functions used by the adapter -/

/-- Constant `http.StatusOK`. -/
def StatusOK : Int := 200
/-- Constant `http.StatusNoContent`. -/
def StatusNoContent : Int := 204
/-- Constant `http.StatusBadRequest`. -/
def StatusBadRequest : Int := 400

/-- Go `strconv.Itoa`, which is also what `fmt.Sprintf` prints for an integer
under `%d`: the base-10 digits, with a leading minus sign when negative. -/
def Itoa : Int → String
  | Int.ofNat n => Nat.repr n
  | Int.negSucc n => "-" ++ Nat.repr (n + 1)

/-- Go conversion `int(x)` of a number: the fractional part is discarded
(rounding toward zero), and a whole number is kept. -/
def int (x : ℚ) : Int := x.num.tdiv x.den

/-- Go `len` of a string: its size in bytes. -/
def len (s : String) : Nat := s.utf8ByteSize

/-- Modelled from the spec: `openrtb_ext.GetImpIDs` is not part of the
adapter source.  The spec has it return "the ordered list of impression
identifiers drawn from the full impression sequence of the original request
(not just the first)"; it is written as the loop that visits every impression
in order and records its identifier. -/
def GetImpIDs (imps : List Imp) : List String :=
  imps.foldl (fun impIDs imp => impIDs ++ [imp.ID]) []

/-- Modelled from the spec: `adapters.NewBidderResponseWithBidsCapacity` is
not part of the adapter source.  The spec has it return a response with an
empty bid list whose "pre-sized capacity hint equals the original request's
impression count (a performance hint, not a correctness constraint)" and whose
"default currency" is "unset/empty". -/
def NewBidderResponseWithBidsCapacity (_bidsCapacity : Nat) : BidderResponse :=
  { Currency := "", Bids := [] }

/-! ## The adapter -/

/-- Go `Builder`: binds the configured endpoint, never fails. -/
def Builder (_bidderName : String) (config : Adapter) (_server : Server) :
    adapter × Option GoError :=
  ({ endpoint := config.Endpoint }, none)

/-- Go `getBidType`. -/
def getBidType (markupType : MarkupType) : BidType :=
  if markupType = MarkupVideo then BidTypeVideo else BidTypeBanner

/-- Go `getBidVideo`. -/
def getBidVideo (bidType : BidType) (bid : Bid) : Option ExtBidPrebidVideo :=
  if bidType ≠ BidTypeVideo then none
  else
    let primaryCategory : String :=
      if h : bid.Cat.length > 0 then bid.Cat.get ⟨0, h⟩ else ""
    some { Duration := int bid.Dur, PrimaryCategory := primaryCategory }

/-- Go `(*adapter).MakeRequests`.  The result is `Except.error` when the call
faults, and otherwise the pair (requests, errors) that the Go function
returns.  `fmt.Sprintf("%s?publisherId=%v", a.endpoint, publisherID)` on two
strings is their concatenation around the literal text. -/
def MakeRequests (json : JsonCodec) (a : adapter) (request : BidRequest)
    (_requestInfo : ExtraRequestInfo) :
    Except Panic (List RequestData × List GoError) :=
  match json.Marshal request with
  | .error err => .ok ([], [GoError.json err])
  | .ok requestJSON =>
    match request.Imp[0]? with
    | none => .error (Panic.indexOutOfRange 0 request.Imp.length)
    | some imp0 =>
      let resolved : Except JsonError String :=
        if imp0.Ext.length > 0 then
          match json.UnmarshalExt imp0.Ext with
          | .error err => .error err
          | .ok ext =>
            let publisherID := ext.Bidder.Pid
            if publisherID = "" ∧ ext.Bidder.PublisherID > 0 then
              .ok (Itoa ext.Bidder.PublisherID)
            else
              .ok publisherID
        else
          .ok ""
      match resolved with
      | .error err => .ok ([], [GoError.json err])
      | .ok publisherID =>
        let requestData : RequestData :=
          { Method := "POST"
            Uri := a.endpoint ++ "?publisherId=" ++ publisherID
            Body := requestJSON
            ImpIDs := GetImpIDs request.Imp }
        .ok ([requestData], [])

/-- The body of the inner loop of `MakeBids`: append one typed bid. -/
def appendBid (bidResponse : BidderResponse) (bid : Bid) : BidderResponse :=
  let bidType := getBidType bid.MType
  { bidResponse with
    Bids := bidResponse.Bids ++
      [{ Bid := bid, BidType := bidType, BidVideo := getBidVideo bidType bid }] }

/-- Go `(*adapter).MakeBids`.  The first component is `none` for a nil
`*adapters.BidderResponse`; the second is the returned error slice. -/
def MakeBids (json : JsonCodec) (_a : adapter) (request : BidRequest)
    (_requestData : RequestData) (responseData : ResponseData) :
    Option BidderResponse × List GoError :=
  if responseData.StatusCode = StatusNoContent then
    (none, [])
  else if responseData.StatusCode = StatusBadRequest then
    (none, [GoError.BadInput
      "Unexpected status code: 400. Bad request from publisher. Run with request.debug = 1 for more info."])
  else if responseData.StatusCode ≠ StatusOK then
    (none, [GoError.BadServerResponse
      ("Unexpected status code: " ++ Itoa responseData.StatusCode ++
        ". Run with request.debug = 1 for more info.")])
  else
    match json.UnmarshalBidResponse responseData.Body with
    | .error err => (none, [GoError.json err])
    | .ok response =>
      let bidResponse := NewBidderResponseWithBidsCapacity request.Imp.length
      let bidResponse :=
        if len response.Cur = 0 then { bidResponse with Currency := response.Cur }
        else bidResponse
      let bidResponse :=
        response.SeatBid.foldl
          (fun bidResponse seatBid => seatBid.Bid.foldl appendBid bidResponse)
          bidResponse
      (some bidResponse, [])

/-! ## MakeBids on the heap -/

/-- An object on the Go heap: what the receiver and the three pointer arguments
of `MakeBids` point to, the local variable `response` (its address is passed to
`jsonutil.Unmarshal`), and the object behind the local pointer `bidResponse`. -/
inductive Cell where
  | adapter (v : adapter)
  | bidRequest (v : BidRequest)
  | requestData (v : RequestData)
  | responseData (v : ResponseData)
  | bidResponse (v : BidResponse)
  | bidderResponse (v : BidderResponse)
deriving DecidableEq, Repr

/-- The Go heap: the object at address `p` is the cell of index `p`.  An
allocation appends a cell, so a new object gets the first unused address. -/
abbrev Heap := List Cell

/-- The object behind a `*adapters.BidderResponse`, `none` for a nil pointer. -/
def loadBidderResponse (heap : Heap) (p : Option Nat) : Option BidderResponse :=
  match p with
  | none => none
  | some p =>
    match heap[p]? with
    | some (Cell.bidderResponse v) => some v
    | _ => none

/-- The statement `bidResponse.Currency = cur`: a write through the pointer
`bidResponse`. -/
def setCurrencyAt (heap : Heap) (bidResponse : Nat) (cur : String) : Heap :=
  match heap[bidResponse]? with
  | some (Cell.bidderResponse v) =>
    heap.set bidResponse (Cell.bidderResponse { v with Currency := cur })
  | _ => heap

/-- The statement `bidResponse.Bids = append(bidResponse.Bids, &adapters.TypedBid{...})`
for one bid: a read and a write through the pointer `bidResponse`. -/
def appendBidAt (heap : Heap) (bidResponse : Nat) (bid : Bid) : Heap :=
  match heap[bidResponse]? with
  | some (Cell.bidderResponse v) =>
    heap.set bidResponse (Cell.bidderResponse (appendBid v bid))
  | _ => heap

/-- Go `(*adapter).MakeBids` on the heap.  The receiver and the arguments are
addresses; the result is `none` when a pointer that the body dereferences does
not lead to an object of its type, and otherwise the returned pointer (`none`
for nil), the returned errors and the heap after the call.  Statement by
statement: the status tests read `*responseData`; `var response` allocates a
zero `openrtb2.BidResponse`; `jsonutil.Unmarshal(responseData.Body, &response)`
reads the body and, on success, writes the decoded value through `&response`;
`NewBidderResponseWithBidsCapacity(len(request.Imp))` reads `*request` and
allocates the bid response; the currency assignment and the appends write
through `bidResponse`.  `a` and `requestData` are never dereferenced.  The
file `oms.go` declares no package-level variable, so the heap is all the state
that a call can read or write. -/
def MakeBidsHeap (json : JsonCodec) (heap : Heap)
    (_a : Nat) (request : Nat) (_requestData : Nat) (responseData : Nat) :
    Option ((Option Nat × List GoError) × Heap) :=
  match heap[responseData]? with
  | some (Cell.responseData rd) =>
    if rd.StatusCode = StatusNoContent then
      some ((none, []), heap)
    else if rd.StatusCode = StatusBadRequest then
      some ((none, [GoError.BadInput
        "Unexpected status code: 400. Bad request from publisher. Run with request.debug = 1 for more info."]),
        heap)
    else if rd.StatusCode ≠ StatusOK then
      some ((none, [GoError.BadServerResponse
        ("Unexpected status code: " ++ Itoa rd.StatusCode ++
          ". Run with request.debug = 1 for more info.")]), heap)
    else
      let response := heap.length
      let heap := heap ++ [Cell.bidResponse { ID := "", SeatBid := [], Cur := "" }]
      match json.UnmarshalBidResponse rd.Body with
      | .error err => some ((none, [GoError.json err]), heap)
      | .ok decoded =>
        let heap := heap.set response (Cell.bidResponse decoded)
        match heap[request]? with
        | some (Cell.bidRequest req) =>
          let bidResponse := heap.length
          let heap := heap ++
            [Cell.bidderResponse (NewBidderResponseWithBidsCapacity req.Imp.length)]
          match heap[response]? with
          | some (Cell.bidResponse resp) =>
            let heap :=
              if len resp.Cur = 0 then setCurrencyAt heap bidResponse resp.Cur else heap
            let heap :=
              resp.SeatBid.foldl
                (fun heap seatBid =>
                  seatBid.Bid.foldl (fun heap bid => appendBidAt heap bidResponse bid) heap)
                heap
            some ((some bidResponse, []), heap)
          | _ => none
        | _ => none
  | _ => none

/-! ## The inbound wire format

`jsonutil.Unmarshal` is not part of the adapter source.  This section models it
from the spec, which gives the inbound wire format as "HTTP status code + JSON
body matching a standard auction-response shape: `{cur: string, seatbid: [{bid:
[{..., mtype: int, dur: number, cat: [string], ...}]}]}`" and says that
"deserialization failure aborts with a parsing error". -/

/-- A JSON number literal: its value is `mantissa * 10 ^ exponent`, and
`integral` tells that the literal has neither a fraction nor an exponent part. -/
structure JsonNumber where
  mantissa : Int
  exponent : Int
  integral : Bool
deriving Repr

/-- A JSON value. -/
inductive Json where
  | null
  | bool (b : Bool)
  | number (n : JsonNumber)
  | string (s : String)
  | array (items : List Json)
  | object (members : List (String × Json))

/-- JSON white space: space, tab, line feed, carriage return. -/
def isWs (b : Fin 256) : Bool := b.val = 32 || b.val = 9 || b.val = 10 || b.val = 13

/-- Drop leading white space. -/
def skipWs : Bytes → Bytes
  | [] => []
  | b :: rest => if isWs b then skipWs rest else b :: rest

/-- An ASCII decimal digit. -/
def isDigit (b : Fin 256) : Bool := 48 ≤ b.val && b.val ≤ 57

/-- The leading decimal digits of the input, and the rest. -/
def takeDigits : Bytes → List Nat × Bytes
  | [] => ([], [])
  | b :: rest =>
    if isDigit b then ((b.val - 48) :: (takeDigits rest).1, (takeDigits rest).2)
    else ([], b :: rest)

/-- The number written by a list of decimal digits. -/
def digitsValue (ds : List Nat) : Nat := ds.foldl (fun acc d => acc * 10 + d) 0

/-- The value of a hexadecimal digit. -/
def hexValue (b : Fin 256) : Option Nat :=
  if 48 ≤ b.val ∧ b.val ≤ 57 then some (b.val - 48)
  else if 97 ≤ b.val ∧ b.val ≤ 102 then some (b.val - 87)
  else if 65 ≤ b.val ∧ b.val ≤ 70 then some (b.val - 55)
  else none

/-- A JSON string after its opening quote: the characters up to the closing
quote, with the escapes resolved.  Control characters are rejected, as JSON
requires; octets above 127 and escaped surrogates are outside this model and
are rejected too. -/
def parseStringBody : Bytes → List Char → Option (String × Bytes)
  | [], _ => none
  | b :: rest, acc =>
    if b.val = 34 then some (String.mk acc.reverse, rest)
    else if b.val = 92 then
      match rest with
      | [] => none
      | e :: rest2 =>
        if e.val = 34 then parseStringBody rest2 ('"' :: acc)
        else if e.val = 92 then parseStringBody rest2 ('\\' :: acc)
        else if e.val = 47 then parseStringBody rest2 ('/' :: acc)
        else if e.val = 98 then parseStringBody rest2 (Char.ofNat 8 :: acc)
        else if e.val = 102 then parseStringBody rest2 (Char.ofNat 12 :: acc)
        else if e.val = 110 then parseStringBody rest2 ('\n' :: acc)
        else if e.val = 114 then parseStringBody rest2 ('\r' :: acc)
        else if e.val = 116 then parseStringBody rest2 ('\t' :: acc)
        else if e.val = 117 then
          match rest2 with
          | h1 :: h2 :: h3 :: h4 :: rest3 =>
            match hexValue h1, hexValue h2, hexValue h3, hexValue h4 with
            | some d1, some d2, some d3, some d4 =>
              let code := ((d1 * 16 + d2) * 16 + d3) * 16 + d4
              if 55296 ≤ code ∧ code ≤ 57343 then none
              else parseStringBody rest3 (Char.ofNat code :: acc)
            | _, _, _, _ => none
          | _ => none
        else none
    else if b.val < 32 then none
    else if b.val ≥ 128 then none
    else parseStringBody rest (Char.ofNat b.val :: acc)

/-- A JSON number literal: optional minus, digits without a superfluous leading
zero, optional fraction, optional exponent. -/
def parseNumber (input : Bytes) : Option (JsonNumber × Bytes) :=
  let negative : Bool := match input with
    | b :: _ => b.val = 45
    | [] => false
  let afterSign : Bytes := if negative then input.tail else input
  let intPart := takeDigits afterSign
  if intPart.1 = [] then none
  else if intPart.1.length > 1 ∧ intPart.1.head? = some 0 then none
  else
    let frac : Option (List Nat × Bytes) :=
      match intPart.2 with
      | b :: rest =>
        if b.val = 46 then
          (if (takeDigits rest).1 = [] then none else some (takeDigits rest))
        else some ([], intPart.2)
      | [] => some ([], [])
    match frac with
    | none => none
    | some (fracDigits, afterFrac) =>
      let exp : Option (Option Int × Bytes) :=
        match afterFrac with
        | b :: rest =>
          if b.val = 101 ∨ b.val = 69 then
            let expNegative : Bool := match rest with
              | s :: _ => s.val = 45
              | [] => false
            let expSigned : Bool := match rest with
              | s :: _ => s.val = 45 ∨ s.val = 43
              | [] => false
            let expDigits := takeDigits (if expSigned then rest.tail else rest)
            if expDigits.1 = [] then none
            else some (some (if expNegative then - (digitsValue expDigits.1 : Int)
                             else (digitsValue expDigits.1 : Int)), expDigits.2)
          else some (none, afterFrac)
        | [] => some (none, [])
      match exp with
      | none => none
      | some (expValue, afterExp) =>
        let magnitude : Int := digitsValue (intPart.1 ++ fracDigits)
        some ({ mantissa := if negative then - magnitude else magnitude
                exponent := expValue.getD 0 - fracDigits.length
                integral := fracDigits.isEmpty && expValue.isNone }, afterExp)

/-- The input after the literal text `lit`, when the input starts with it. -/
def expectLiteral (lit : List Nat) (input : Bytes) : Option Bytes :=
  if input.take lit.length |>.map (·.val) |> (· = lit) then some (input.drop lit.length) else none

mutual
/-- A JSON value at the head of the input, and the rest of the input.  The
first argument bounds the number of nested calls; every call consumes at least
one octet, so the length of the input plus one is always enough. -/
def parseValue : Nat → Bytes → Option (Json × Bytes)
  | 0, _ => none
  | fuel + 1, input =>
    match skipWs input with
    | [] => none
    | b :: rest =>
      if b.val = 123 then
        match skipWs rest with
        | c :: rest2 => if c.val = 125 then some (Json.object [], rest2)
                        else parseMembers fuel (c :: rest2) []
        | [] => none
      else if b.val = 91 then
        match skipWs rest with
        | c :: rest2 => if c.val = 93 then some (Json.array [], rest2)
                        else parseElements fuel (c :: rest2) []
        | [] => none
      else if b.val = 34 then
        match parseStringBody rest [] with
        | some (s, rest2) => some (Json.string s, rest2)
        | none => none
      else if b.val = 116 then
        match expectLiteral [116, 114, 117, 101] (b :: rest) with
        | some rest2 => some (Json.bool true, rest2)
        | none => none
      else if b.val = 102 then
        match expectLiteral [102, 97, 108, 115, 101] (b :: rest) with
        | some rest2 => some (Json.bool false, rest2)
        | none => none
      else if b.val = 110 then
        match expectLiteral [110, 117, 108, 108] (b :: rest) with
        | some rest2 => some (Json.null, rest2)
        | none => none
      else
        match parseNumber (b :: rest) with
        | some (n, rest2) => some (Json.number n, rest2)
        | none => none
/-- The elements of a JSON array after the opening bracket. -/
def parseElements : Nat → Bytes → List Json → Option (Json × Bytes)
  | 0, _, _ => none
  | fuel + 1, input, acc =>
    match parseValue fuel input with
    | none => none
    | some (v, rest) =>
      match skipWs rest with
      | c :: rest2 =>
        if c.val = 44 then parseElements fuel rest2 (acc ++ [v])
        else if c.val = 93 then some (Json.array (acc ++ [v]), rest2)
        else none
      | [] => none
/-- The members of a JSON object after the opening brace. -/
def parseMembers : Nat → Bytes → List (String × Json) → Option (Json × Bytes)
  | 0, _, _ => none
  | fuel + 1, input, acc =>
    match skipWs input with
    | q :: rest =>
      if q.val = 34 then
        match parseStringBody rest [] with
        | none => none
        | some (key, rest2) =>
          match skipWs rest2 with
          | colon :: rest3 =>
            if colon.val = 58 then
              match parseValue fuel rest3 with
              | none => none
              | some (v, rest4) =>
                match skipWs rest4 with
                | c :: rest5 =>
                  if c.val = 44 then parseMembers fuel rest5 (acc ++ [(key, v)])
                  else if c.val = 125 then some (Json.object (acc ++ [(key, v)]), rest5)
                  else none
                | [] => none
            else none
          | [] => none
      else none
    | [] => none
end

/-- The rational number that a JSON number literal denotes. -/
def JsonNumber.toRat (n : JsonNumber) : ℚ :=
  if 0 ≤ n.exponent then ((n.mantissa * ((10 ^ n.exponent.toNat : Nat) : Int) : Int) : ℚ)
  else mkRat n.mantissa (10 ^ (-n.exponent).toNat)

/-- A JSON array of strings. -/
def decodeStrings : List Json → Except JsonError (List String)
  | [] => .ok []
  | Json.string s :: rest =>
    match decodeStrings rest with
    | .ok ss => .ok (s :: ss)
    | .error e => .error e
  | _ :: _ => .error { msg := "cannot unmarshal: expected a string" }

/-- Decode every element of a JSON array. -/
def decodeList {α : Type} (f : Json → Except JsonError α) : List Json → Except JsonError (List α)
  | [] => .ok []
  | j :: rest =>
    match f j with
    | .error e => .error e
    | .ok v =>
      match decodeList f rest with
      | .ok vs => .ok (v :: vs)
      | .error e => .error e

/-- Assign the members of a JSON object one after the other. -/
def decodeMembers {α : Type} (set : α → String → Json → Except JsonError α) :
    List (String × Json) → α → Except JsonError α
  | [], acc => .ok acc
  | (key, value) :: rest, acc =>
    match set acc key value with
    | .ok acc => decodeMembers set rest acc
    | .error e => .error e

/-- One member of a bid object: `id` and `impid` are strings, `mtype` is an
integer, `dur` is a number, `cat` is an array of strings; `null` leaves the
field as it is and any other member is skipped. -/
def setBidField (bid : Bid) (key : String) (value : Json) : Except JsonError Bid :=
  if key = "id" then
    match value with
    | Json.string v => .ok { bid with ID := v }
    | Json.null => .ok bid
    | _ => .error { msg := "cannot unmarshal: bid.id is not a string" }
  else if key = "impid" then
    match value with
    | Json.string v => .ok { bid with ImpID := v }
    | Json.null => .ok bid
    | _ => .error { msg := "cannot unmarshal: bid.impid is not a string" }
  else if key = "mtype" then
    match value with
    | Json.number n =>
      if n.integral then .ok { bid with MType := n.mantissa }
      else .error { msg := "cannot unmarshal: bid.mtype is not an integer" }
    | Json.null => .ok bid
    | _ => .error { msg := "cannot unmarshal: bid.mtype is not an integer" }
  else if key = "dur" then
    match value with
    | Json.number n => .ok { bid with Dur := n.toRat }
    | Json.null => .ok bid
    | _ => .error { msg := "cannot unmarshal: bid.dur is not a number" }
  else if key = "cat" then
    match value with
    | Json.array items =>
      match decodeStrings items with
      | .ok cats => .ok { bid with Cat := cats }
      | .error e => .error e
    | Json.null => .ok bid
    | _ => .error { msg := "cannot unmarshal: bid.cat is not an array" }
  else .ok bid

/-- A bid object. -/
def decodeBid : Json → Except JsonError Bid
  | Json.object members =>
    decodeMembers setBidField members { ID := "", ImpID := "", MType := 0, Dur := 0, Cat := [] }
  | Json.null => .ok { ID := "", ImpID := "", MType := 0, Dur := 0, Cat := [] }
  | _ => .error { msg := "cannot unmarshal: bid is not an object" }

/-- One member of a seat-bid object: `bid` is an array of bids, `seat` is a
string. -/
def setSeatBidField (seatBid : SeatBid) (key : String) (value : Json) :
    Except JsonError SeatBid :=
  if key = "bid" then
    match value with
    | Json.array items =>
      match decodeList decodeBid items with
      | .ok bids => .ok { seatBid with Bid := bids }
      | .error e => .error e
    | Json.null => .ok seatBid
    | _ => .error { msg := "cannot unmarshal: seatbid.bid is not an array" }
  else if key = "seat" then
    match value with
    | Json.string v => .ok { seatBid with Seat := v }
    | Json.null => .ok seatBid
    | _ => .error { msg := "cannot unmarshal: seatbid.seat is not a string" }
  else .ok seatBid

/-- A seat-bid object. -/
def decodeSeatBid : Json → Except JsonError SeatBid
  | Json.object members => decodeMembers setSeatBidField members { Bid := [], Seat := "" }
  | Json.null => .ok { Bid := [], Seat := "" }
  | _ => .error { msg := "cannot unmarshal: seatbid is not an object" }

/-- One member of an auction response: `id` and `cur` are strings, `seatbid` is
an array of seat-bid objects. -/
def setBidResponseField (response : BidResponse) (key : String) (value : Json) :
    Except JsonError BidResponse :=
  if key = "id" then
    match value with
    | Json.string v => .ok { response with ID := v }
    | Json.null => .ok response
    | _ => .error { msg := "cannot unmarshal: id is not a string" }
  else if key = "cur" then
    match value with
    | Json.string v => .ok { response with Cur := v }
    | Json.null => .ok response
    | _ => .error { msg := "cannot unmarshal: cur is not a string" }
  else if key = "seatbid" then
    match value with
    | Json.array items =>
      match decodeList decodeSeatBid items with
      | .ok seatBids => .ok { response with SeatBid := seatBids }
      | .error e => .error e
    | Json.null => .ok response
    | _ => .error { msg := "cannot unmarshal: seatbid is not an array" }
  else .ok response

/-- Modelled from the spec: `jsonutil.Unmarshal(responseData.Body, &response)`
is not part of the adapter source.  The spec has it "deserialize the response
body into a standardized auction response shape containing a currency code and
a sequence of seat-bid groups, each containing a sequence of bids", from a
"JSON body matching a standard auction-response shape: `{cur: string, seatbid:
[{bid: [{..., mtype: int, dur: number, cat: [string], ...}]}]}`", and fail with
a parsing error otherwise.  The body is parsed as one JSON value followed by
white space only, and the members named by the spec (with the identifiers `id`
and `impid` of a bid) are assigned to a zero `openrtb2.BidResponse`. -/
def wireUnmarshalBidResponse (data : Bytes) : Except JsonError BidResponse :=
  match parseValue (data.length + 1) data with
  | none => .error { msg := "invalid JSON" }
  | some (value, rest) =>
    if skipWs rest = [] then
      match value with
      | Json.object members =>
        decodeMembers setBidResponseField members { ID := "", SeatBid := [], Cur := "" }
      | Json.null => .ok { ID := "", SeatBid := [], Cur := "" }
      | _ => .error { msg := "cannot unmarshal: response is not an object" }
    else .error { msg := "invalid JSON: text after the value" }

/-! ## Concrete documents

A codec given by a finite table of JSON documents, and the requests and
responses built from them.  They instantiate the theorems below on concrete
inputs. -/

/-- Octets of an ASCII text. -/
def ascii (s : String) : Bytes := s.toList.map (fun c => Fin.ofNat c.toNat)

/-- Extension `{"bidder":{"pid":"12345","publisherId":7}}`. -/
def extPid : Bytes := ascii "\x7b\"bidder\":\x7b\"pid\":\"12345\",\"publisherId\":7\x7d\x7d"

/-- Extension `{"bidder":{"publisherId":42}}`. -/
def extPublisherID : Bytes := ascii "\x7b\"bidder\":\x7b\"publisherId\":42\x7d\x7d"

/-- Extension `{"bidder":{"publisherId":-3}}`. -/
def extNegativeID : Bytes := ascii "\x7b\"bidder\":\x7b\"publisherId\":-3\x7d\x7d"

/-- Extension `{"bidder":"oms"}`: well-formed JSON of the wrong shape. -/
def extWrongShape : Bytes := ascii "\x7b\"bidder\":\"oms\"\x7d"

/-- Response body
`{"cur":"USD","seatbid":[{"bid":[{"id":"a","impid":"1","mtype":1},{"id":"b","impid":"1","mtype":2,"dur":30,"cat":["IAB1"]}]},{"bid":[{"id":"c","impid":"1"}]}]}`. -/
def bodyThreeBids : Bytes :=
  ascii ("\x7b\"cur\":\"USD\",\"seatbid\":[\x7b\"bid\":[\x7b\"id\":\"a\",\"impid\":\"1\",\"mtype\":1\x7d," ++
    "\x7b\"id\":\"b\",\"impid\":\"1\",\"mtype\":2,\"dur\":30,\"cat\":[\"IAB1\"]\x7d]\x7d," ++
    "\x7b\"bid\":[\x7b\"id\":\"c\",\"impid\":\"1\"\x7d]\x7d]\x7d")

/-- The auction response that `bodyThreeBids` denotes. -/
def responseThreeBids : BidResponse :=
  { ID := ""
    SeatBid :=
      [ { Bid := [ { ID := "a", ImpID := "1", MType := 1, Dur := 0, Cat := [] },
                   { ID := "b", ImpID := "1", MType := 2, Dur := 30, Cat := ["IAB1"] } ],
          Seat := "" },
        { Bid := [ { ID := "c", ImpID := "1", MType := 0, Dur := 0, Cat := [] } ],
          Seat := "" } ]
    Cur := "USD" }

/-- Extension `{"bidder":{"pid":"a&b=c#d?e f\u00e9"}}`: a pid with characters
that are special in a URL. -/
def extSpecialPid : Bytes :=
  ascii "\x7b\"bidder\":\x7b\"pid\":\"a&b=c#d?e f\\u00e9\"\x7d\x7d"

/-- Response body
`{"cur":"USD","seatbid":[{"bid":[{"mtype":2,"dur":30.7,"cat":["IAB1"]}]}]}`. -/
def bodyVideo : Bytes :=
  ascii ("\x7b\"cur\":\"USD\",\"seatbid\":[\x7b\"bid\":[" ++
    "\x7b\"mtype\":2,\"dur\":30.7,\"cat\":[\"IAB1\"]\x7d]\x7d]\x7d")

/-- The bid of `bodyVideo`: video markup, declared duration 307/10 = 30.7. -/
def bidVideo : Bid :=
  { ID := "", ImpID := "", MType := 2, Dur := mkRat 307 10, Cat := ["IAB1"] }

/-- The auction response that `bodyVideo` denotes. -/
def responseVideo : BidResponse :=
  { ID := "", SeatBid := [ { Bid := [bidVideo], Seat := "" } ], Cur := "USD" }

/-- Response body
`{"seatbid":[{"bid":[{"id":"d","impid":"1","mtype":1,"dur":15,"cat":["IAB2"]}]}]}`:
no currency, and a banner bid that declares a duration and a category. -/
def bodyBanner : Bytes :=
  ascii ("\x7b\"seatbid\":[\x7b\"bid\":[\x7b\"id\":\"d\",\"impid\":\"1\"," ++
    "\"mtype\":1,\"dur\":15,\"cat\":[\"IAB2\"]\x7d]\x7d]\x7d")

/-- The bid of `bodyBanner`. -/
def bidBanner : Bid :=
  { ID := "d", ImpID := "1", MType := 1, Dur := 15, Cat := ["IAB2"] }

/-- The auction response that `bodyBanner` denotes. -/
def responseBanner : BidResponse :=
  { ID := "", SeatBid := [ { Bid := [bidBanner], Seat := "" } ], Cur := "" }

/-- The table codec.  A request serializes unless its identifier is empty (the
wire text is abridged to the identifier); the extensions and the response
bodies above decode to the values they denote; everything else is rejected. -/
def tableCodec : JsonCodec where
  Marshal := fun request =>
    if request.ID = "" then .error { msg := "json: unsupported value" }
    else .ok (ascii ("\x7b\"id\":\"" ++ request.ID ++ "\"\x7d"))
  UnmarshalExt := fun data =>
    if data = extPid then .ok { Bidder := { Pid := "12345", PublisherID := 7 }, Tid := "" }
    else if data = extPublisherID then .ok { Bidder := { Pid := "", PublisherID := 42 }, Tid := "" }
    else if data = extNegativeID then .ok { Bidder := { Pid := "", PublisherID := -3 }, Tid := "" }
    else if data = extSpecialPid then
      .ok { Bidder := { Pid := "a&b=c#d?e f\u00e9", PublisherID := 0 }, Tid := "" }
    else .error { msg := "cannot unmarshal" }
  UnmarshalBidResponse := fun data =>
    if data = bodyThreeBids then .ok responseThreeBids
    else if data = bodyVideo then .ok responseVideo
    else if data = bodyBanner then .ok responseBanner
    else .error { msg := "cannot unmarshal" }

/-- A request with two impressions whose first extension is `ext`. -/
def requestWithExt (ext : Bytes) : BidRequest :=
  { ID := "auction-1"
    Imp := [ { ID := "imp-1", Ext := ext }, { ID := "imp-2", Ext := extWrongShape } ] }

/-- A request with the same first impression as `requestWithExt ext` and other
later impressions: a third impression, and a pid on the second. -/
def requestWithExtOther (ext : Bytes) : BidRequest :=
  { ID := "auction-2"
    Imp := [ { ID := "imp-1", Ext := ext }, { ID := "imp-2", Ext := extPid },
             { ID := "imp-3", Ext := [] } ] }

/-- A serializable request with no impression. -/
def requestNoImp : BidRequest := { ID := "auction-3", Imp := [] }

/-- The endpoint configuration used in the concrete instances. -/
def omsConfig : Adapter := { Endpoint := "http://rt.marphezis.com/pbs" }

/-- The adapter built from `omsConfig`. -/
def omsAdapter : adapter := (Builder "oms" omsConfig { ExternalUrl := "" }).1

/-- The outbound request for `requestWithExt ext` and identifier `publisherID`,
under the table codec. -/
def requestDataFor (publisherID : String) : RequestData :=
  { Method := "POST"
    Uri := "http://rt.marphezis.com/pbs?publisherId=" ++ publisherID
    Body := ascii "\x7b\"id\":\"auction-1\"\x7d"
    ImpIDs := ["imp-1", "imp-2"] }

/-- A heap that holds the adapter, a request, its outbound request data and a
status-200 response with body `body`, at the addresses 0, 1, 2 and 3. -/
def heapWithBody (body : Bytes) : Heap :=
  [ Cell.adapter omsAdapter, Cell.bidRequest (requestWithExt extPid),
    Cell.requestData (requestDataFor "12345"),
    Cell.responseData { StatusCode := 200, Body := body } ]

/-! ## Auxiliary lemmas -/

theorem GetImpIDs_foldl (imps : List Imp) (acc : List String) :
    imps.foldl (fun impIDs imp => impIDs ++ [imp.ID]) acc = acc ++ imps.map Imp.ID := by
  induction imps generalizing acc with
  | nil => simp
  | cons imp rest ih => simp [List.foldl_cons, ih]

theorem GetImpIDs_eq_map (imps : List Imp) : GetImpIDs imps = imps.map Imp.ID := by
  simp [GetImpIDs, GetImpIDs_foldl]

/-- The inner loop of `MakeBids` leaves the currency alone and appends one
typed bid per bid, in order. -/
theorem foldl_appendBid (bids : List Bid) (br : BidderResponse) :
    bids.foldl appendBid br =
      { br with
        Bids := br.Bids ++ bids.map (fun bid =>
          { Bid := bid, BidType := getBidType bid.MType,
            BidVideo := getBidVideo (getBidType bid.MType) bid }) } := by
  induction bids generalizing br with
  | nil => simp
  | cons bid rest ih => simp [List.foldl_cons, ih, appendBid, List.append_assoc]

/-- The outer loop of `MakeBids` visits the seat-bid groups in order. -/
theorem foldl_seatBid (seatBids : List SeatBid) (br : BidderResponse) :
    seatBids.foldl (fun bidResponse seatBid => seatBid.Bid.foldl appendBid bidResponse) br =
      { br with
        Bids := br.Bids ++ (seatBids.map SeatBid.Bid).flatten.map (fun bid =>
          { Bid := bid, BidType := getBidType bid.MType,
            BidVideo := getBidVideo (getBidType bid.MType) bid }) } := by
  induction seatBids generalizing br with
  | nil => simp
  | cons sb rest ih =>
    rw [List.foldl_cons, ih, foldl_appendBid]
    simp [List.append_assoc]

/-- The conversion keeps a whole number. -/
theorem int_intCast (n : Int) : int (n : ℚ) = n := by
  simp [int]

/-- A string has no byte exactly when it is the empty string. -/
theorem len_eq_zero_iff (s : String) : len s = 0 ↔ s = "" := by
  constructor
  · intro h
    rcases s with ⟨data⟩
    cases data with
    | nil => rfl
    | cons c cs =>
      exfalso
      have hpos : 0 < c.utf8Size := Char.utf8Size_pos c
      simp [len, String.utf8ByteSize, String.utf8ByteSize.go] at h
      omega
  · rintro rfl
    rfl

/-- The value of `MakeBids` on a status-200 response whose body decodes. -/
theorem MakeBids_decoded (json : JsonCodec) (a : adapter) (request : BidRequest)
    (requestData : RequestData) (responseData : ResponseData) (response : BidResponse)
    (hStatus : responseData.StatusCode = 200)
    (hBody : json.UnmarshalBidResponse responseData.Body = .ok response) :
    MakeBids json a request requestData responseData =
      (some { Currency := if len response.Cur = 0 then response.Cur else "",
              Bids := (response.SeatBid.map SeatBid.Bid).flatten.map (fun bid =>
                { Bid := bid, BidType := getBidType bid.MType,
                  BidVideo := getBidVideo (getBidType bid.MType) bid }) }, []) := by
  simp only [MakeBids, hStatus, hBody, StatusNoContent, StatusBadRequest, StatusOK,
    foldl_seatBid, NewBidderResponseWithBidsCapacity]
  by_cases hCur : len response.Cur = 0 <;> simp [hCur]

/-- A non-nil bid response comes from a status-200 response whose body
decodes. -/
theorem MakeBids_some_inv (json : JsonCodec) (a : adapter) (request : BidRequest)
    (requestData : RequestData) (responseData : ResponseData)
    (bidResponse : BidderResponse) (errs : List GoError)
    (hRet : MakeBids json a request requestData responseData = (some bidResponse, errs)) :
    responseData.StatusCode = 200 ∧
      ∃ response : BidResponse, json.UnmarshalBidResponse responseData.Body = .ok response := by
  unfold MakeBids at hRet
  split_ifs at hRet with h204 h400 hNot200
  · simp at hRet
  · simp at hRet
  · simp at hRet
  · refine ⟨by simpa [StatusOK] using hNot200, ?_⟩
    cases hBody : json.UnmarshalBidResponse responseData.Body with
    | error e => simp [hBody] at hRet
    | ok response => exact ⟨response, rfl⟩

/-- With at least one impression `MakeRequests` returns one request and no
error, or no request and one error. -/
theorem MakeRequests_one_request_or_one_error_aux (json : JsonCodec) (a : adapter)
    (request : BidRequest) (requestInfo : ExtraRequestInfo)
    (imp0 : Imp) (rest : List Imp)
    (hImp : request.Imp = imp0 :: rest) :
    (∃ requestData : RequestData,
        MakeRequests json a request requestInfo = .ok ([requestData], [])) ∨
     (∃ err : GoError, MakeRequests json a request requestInfo = .ok ([], [err])) := by
  cases hMarshal : json.Marshal request with
  | error e => simp [MakeRequests, hMarshal]
  | ok requestJSON =>
    by_cases hLen : imp0.Ext.length > 0
    · cases hExt : json.UnmarshalExt imp0.Ext with
      | error e => simp [MakeRequests, hMarshal, hImp, hLen, hExt]
      | ok ext =>
        by_cases hId : ext.Bidder.Pid = "" ∧ ext.Bidder.PublisherID > 0
        · simp [MakeRequests, hMarshal, hImp, hLen, hExt, hId]
        · simp [MakeRequests, hMarshal, hImp, hLen, hExt, hId]
    · simp [MakeRequests, hMarshal, hImp, hLen]

/-- Writing back what a cell holds leaves the heap as it is. -/
theorem heap_set_self (heap : Heap) (p : Nat) (c : Cell) (h : heap[p]? = some c) :
    heap.set p c = heap := by
  apply List.ext_getElem?
  intro q
  by_cases hq : p = q
  · subst hq
    have hlt : p < heap.length := by
      by_contra hge
      simp [List.getElem?_eq_none (Nat.le_of_not_lt hge)] at h
    simp [List.getElem?_set, hlt, h]
  · simp [List.getElem?_set, hq]

/-- Reading the cell that was just written. -/
theorem heap_get_set_self (heap : Heap) (p : Nat) (c d : Cell) (h : heap[p]? = some c) :
    (heap.set p d)[p]? = some d := by
  have hlt : p < heap.length := by
    by_contra hge
    simp [List.getElem?_eq_none (Nat.le_of_not_lt hge)] at h
  simp [List.getElem?_set, hlt]

/-- The inner loop of `MakeBidsHeap` writes to the cell behind `bidResponse`
only, and leaves there what the inner loop of `MakeBids` computes. -/
theorem foldl_appendBidAt (bids : List Bid) (heap : Heap) (p : Nat) (v : BidderResponse)
    (h : heap[p]? = some (Cell.bidderResponse v)) :
    bids.foldl (fun heap bid => appendBidAt heap p bid) heap
      = heap.set p (Cell.bidderResponse (bids.foldl appendBid v)) := by
  induction bids generalizing heap v with
  | nil => simp [heap_set_self heap p _ h]
  | cons bid rest ih =>
    rw [List.foldl_cons]
    have hStep : appendBidAt heap p bid
        = heap.set p (Cell.bidderResponse (appendBid v bid)) := by
      simp [appendBidAt, h]
    rw [hStep, ih _ _ (heap_get_set_self heap p _ _ h), List.set_set, List.foldl_cons]

/-- The outer loop of `MakeBidsHeap` writes to the cell behind `bidResponse`
only, and leaves there what the two loops of `MakeBids` compute. -/
theorem foldl_seatBidAt (seatBids : List SeatBid) (heap : Heap) (p : Nat) (v : BidderResponse)
    (h : heap[p]? = some (Cell.bidderResponse v)) :
    seatBids.foldl
        (fun heap seatBid => seatBid.Bid.foldl (fun heap bid => appendBidAt heap p bid) heap) heap
      = heap.set p (Cell.bidderResponse
          (seatBids.foldl (fun bidResponse seatBid => seatBid.Bid.foldl appendBid bidResponse) v)) := by
  induction seatBids generalizing heap v with
  | nil => simp [heap_set_self heap p _ h]
  | cons seatBid rest ih =>
    rw [List.foldl_cons, foldl_appendBidAt seatBid.Bid heap p v h,
      ih _ _ (heap_get_set_self heap p _ _ h), List.set_set, List.foldl_cons]

/-- One call of `MakeBidsHeap` on a heap that holds a bid request at `request`
and a response at `responseData`: the call returns, its errors and the object
behind its returned pointer are those of `MakeBids`, the heap only grows, and
every cell that existed before the call is unchanged. -/
theorem MakeBidsHeap_eval (json : JsonCodec) (heap : Heap)
    (a request requestData responseData : Nat)
    (av : adapter) (req : BidRequest) (rdv : RequestData) (rd : ResponseData)
    (hRequest : heap[request]? = some (Cell.bidRequest req))
    (hResponse : heap[responseData]? = some (Cell.responseData rd)) :
    ∃ (ptr : Option Nat) (heap1 : Heap),
      MakeBidsHeap json heap a request requestData responseData
        = some ((ptr, (MakeBids json av req rdv rd).2), heap1) ∧
      loadBidderResponse heap1 ptr = (MakeBids json av req rdv rd).1 ∧
      ptr.isSome = (MakeBids json av req rdv rd).1.isSome ∧
      heap.length ≤ heap1.length ∧
      ∀ q : Nat, q < heap.length → heap1[q]? = heap[q]? := by
  have hReqLt : request < heap.length := by
    by_contra hge
    simp [List.getElem?_eq_none (Nat.le_of_not_lt hge)] at hRequest
  by_cases h204 : rd.StatusCode = 204
  · exact ⟨none, heap,
      by simp [MakeBidsHeap, MakeBids, hResponse, h204, StatusNoContent],
      by simp [MakeBids, h204, loadBidderResponse, StatusNoContent],
      by simp [MakeBids, h204, StatusNoContent],
      le_refl _, fun _ _ => rfl⟩
  by_cases h400 : rd.StatusCode = 400
  · exact ⟨none, heap,
      by simp [MakeBidsHeap, MakeBids, hResponse, h400, StatusNoContent, StatusBadRequest],
      by simp [MakeBids, h400, loadBidderResponse, StatusNoContent, StatusBadRequest],
      by simp [MakeBids, h400, StatusNoContent, StatusBadRequest],
      le_refl _, fun _ _ => rfl⟩
  by_cases h200 : rd.StatusCode = 200
  swap
  · exact ⟨none, heap,
      by simp [MakeBidsHeap, MakeBids, hResponse, h204, h400, h200, StatusNoContent,
        StatusBadRequest, StatusOK],
      by simp [MakeBids, h204, h400, h200, loadBidderResponse, StatusNoContent,
        StatusBadRequest, StatusOK],
      by simp [MakeBids, h204, h400, h200, StatusNoContent, StatusBadRequest, StatusOK],
      le_refl _, fun _ _ => rfl⟩
  cases hBody : json.UnmarshalBidResponse rd.Body with
  | error err =>
    refine ⟨none, heap ++ [Cell.bidResponse { ID := "", SeatBid := [], Cur := "" }],
      ?_, ?_, ?_, ?_, ?_⟩
    · simp [MakeBidsHeap, MakeBids, hResponse, h200, hBody, StatusNoContent,
        StatusBadRequest, StatusOK]
    · simp [MakeBids, h200, hBody, loadBidderResponse, StatusNoContent,
        StatusBadRequest, StatusOK]
    · simp [MakeBids, h200, hBody, StatusNoContent, StatusBadRequest, StatusOK]
    · simp
    · intro q hq
      simp [List.getElem?_append_left hq]
  | ok decoded =>
    have hMB : MakeBids json av req rdv rd =
        (some (decoded.SeatBid.foldl
          (fun bidResponse seatBid => seatBid.Bid.foldl appendBid bidResponse)
          (if len decoded.Cur = 0 then
            { NewBidderResponseWithBidsCapacity req.Imp.length with Currency := decoded.Cur }
           else NewBidderResponseWithBidsCapacity req.Imp.length)), []) := by
      simp [MakeBids, h200, hBody, StatusNoContent, StatusBadRequest, StatusOK]
    generalize hbr0 : (if len decoded.Cur = 0 then
        { NewBidderResponseWithBidsCapacity req.Imp.length with Currency := decoded.Cur }
      else NewBidderResponseWithBidsCapacity req.Imp.length) = br0 at hMB
    generalize hh2 : (heap ++ [Cell.bidResponse { ID := "", SeatBid := [], Cur := "" }]).set
      heap.length (Cell.bidResponse decoded) = heap2
    have hLen2 : heap2.length = heap.length + 1 := by simp [← hh2]
    have hOld2 : ∀ q : Nat, q < heap.length → heap2[q]? = heap[q]? := by
      intro q hq
      have hne : heap.length ≠ q := by omega
      simp [← hh2, List.getElem?_set, hne, List.getElem?_append_left hq]
    have hReq2 : heap2[request]? = some (Cell.bidRequest req) := by
      rw [hOld2 request hReqLt, hRequest]
    have hResp2 : heap2[heap.length]? = some (Cell.bidResponse decoded) := by
      simp [← hh2, List.getElem?_set]
    generalize hh3 : heap2 ++
      [Cell.bidderResponse (NewBidderResponseWithBidsCapacity req.Imp.length)] = heap3
    have hLen3 : heap3.length = heap.length + 2 := by simp [← hh3, hLen2]
    have hNew3 : heap3[heap2.length]?
        = some (Cell.bidderResponse (NewBidderResponseWithBidsCapacity req.Imp.length)) := by
      simp [← hh3]
    have hResp3 : heap3[heap.length]? = some (Cell.bidResponse decoded) := by
      have hq2 : heap.length < heap2.length := by omega
      rw [← hh3, List.getElem?_append_left hq2, hResp2]
    have hOld3 : ∀ q : Nat, q < heap.length → heap3[q]? = heap[q]? := by
      intro q hq
      have hq2 : q < heap2.length := by omega
      rw [← hh3, List.getElem?_append_left hq2, hOld2 q hq]
    have hCur : (if len decoded.Cur = 0 then setCurrencyAt heap3 heap2.length decoded.Cur
        else heap3) = heap3.set heap2.length (Cell.bidderResponse br0) := by
      by_cases hc : len decoded.Cur = 0
      · simp [hc, setCurrencyAt, hNew3, ← hbr0]
      · simp only [hc, if_false] at hbr0 ⊢
        rw [← hbr0, heap_set_self heap3 _ _ hNew3]
    have hRun : MakeBidsHeap json heap a request requestData responseData
        = some ((some heap2.length, []), heap3.set heap2.length (Cell.bidderResponse
            (decoded.SeatBid.foldl
              (fun bidResponse seatBid => seatBid.Bid.foldl appendBid bidResponse) br0))) := by
      simp only [MakeBidsHeap, hResponse, h200, hBody, StatusNoContent, StatusBadRequest,
        StatusOK, hh2, hReq2, hh3, hResp3, hCur]
      simp only [foldl_seatBidAt decoded.SeatBid _ heap2.length br0
        (heap_get_set_self heap3 _ _ _ hNew3), List.set_set]
      simp
    refine ⟨some heap2.length, heap3.set heap2.length (Cell.bidderResponse
        (decoded.SeatBid.foldl
          (fun bidResponse seatBid => seatBid.Bid.foldl appendBid bidResponse) br0)),
      ?_, ?_, ?_, ?_, ?_⟩
    · rw [hRun, hMB]
    · rw [hMB]
      simp only [loadBidderResponse]
      rw [heap_get_set_self heap3 _ _ _ hNew3]
    · rw [hMB]
      rfl
    · simp [hLen3]
    · intro q hq
      have hne : heap2.length ≠ q := by omega
      simp [List.getElem?_set, hne, hOld3 q hq]

set_option maxRecDepth 8000 in
/-- The three-bid body of the table codec decodes, under the decoder of the
inbound wire format, to the value that the table gives it. -/
theorem wireUnmarshalBidResponse_bodyThreeBids :
    wireUnmarshalBidResponse bodyThreeBids = .ok responseThreeBids := by
  rfl

/-! ## Request translation -/

/-- C1: for every endpoint bound by `Builder` and every bid request with at
least one impression that serializes successfully and whose first impression
carries an extension that parses to a bidder object with a non-empty pid X,
`MakeRequests` returns exactly one request and no error, and the Uri of that
request is the endpoint followed by `?publisherId=` and X, whatever the
integer publisherId field holds. -/
theorem MakeRequests_uri_of_pid (json : JsonCodec) (bidderName : String) (config : Adapter)
    (server : Server) (request : BidRequest) (requestInfo : ExtraRequestInfo)
    (imp0 : Imp) (rest : List Imp) (requestJSON : Bytes) (ext : pbsExt)
    (hImp : request.Imp = imp0 :: rest)
    (hMarshal : json.Marshal request = .ok requestJSON)
    (hLen : imp0.Ext.length > 0)
    (hExt : json.UnmarshalExt imp0.Ext = .ok ext)
    (hPid : ext.Bidder.Pid ≠ "") :
    ∃ requestData : RequestData,
      MakeRequests json (Builder bidderName config server).1 request requestInfo
        = .ok ([requestData], []) ∧
      requestData.Uri = config.Endpoint ++ "?publisherId=" ++ ext.Bidder.Pid := by
  refine ⟨{ Method := "POST", Uri := config.Endpoint ++ "?publisherId=" ++ ext.Bidder.Pid,
             Body := requestJSON, ImpIDs := GetImpIDs request.Imp }, ?_, rfl⟩
  simp [MakeRequests, Builder, hImp, hMarshal, hLen, hExt, hPid]

/-- Instance of C1: the extension `{"bidder":{"pid":"12345","publisherId":7}}`
gives the Uri ending in `?publisherId=12345`, not `7`. -/
theorem MakeRequests_uri_of_pid_witness :
    tableCodec.UnmarshalExt extPid
        = .ok { Bidder := { Pid := "12345", PublisherID := 7 }, Tid := "" } ∧
    ∃ requestData : RequestData,
      MakeRequests tableCodec (Builder "oms" omsConfig { ExternalUrl := "" }).1
          (requestWithExt extPid) { PbsEntryPoint := "" } = .ok ([requestData], []) ∧
      requestData.Uri = "http://rt.marphezis.com/pbs?publisherId=12345" :=
  ⟨rfl,
   MakeRequests_uri_of_pid tableCodec "oms" omsConfig { ExternalUrl := "" }
     (requestWithExt extPid) { PbsEntryPoint := "" }
     { ID := "imp-1", Ext := extPid } [{ ID := "imp-2", Ext := extWrongShape }]
     (ascii "\x7b\"id\":\"auction-1\"\x7d")
     { Bidder := { Pid := "12345", PublisherID := 7 }, Tid := "" }
     rfl rfl (by decide) rfl (by decide)⟩

/-- C2: for every bid request with at least one impression that serializes
successfully and whose first impression carries an extension that parses to a
bidder object with an empty (or absent) pid and an integer publisherId n > 0,
`MakeRequests` returns exactly one request and no error, and the Uri of that
request is the endpoint followed by `?publisherId=` and the base-10 text of
n. -/
theorem MakeRequests_uri_of_publisherID (json : JsonCodec) (a : adapter)
    (request : BidRequest) (requestInfo : ExtraRequestInfo)
    (imp0 : Imp) (rest : List Imp) (requestJSON : Bytes) (ext : pbsExt)
    (hImp : request.Imp = imp0 :: rest)
    (hMarshal : json.Marshal request = .ok requestJSON)
    (hLen : imp0.Ext.length > 0)
    (hExt : json.UnmarshalExt imp0.Ext = .ok ext)
    (hPid : ext.Bidder.Pid = "")
    (hPos : ext.Bidder.PublisherID > 0) :
    ∃ requestData : RequestData,
      MakeRequests json a request requestInfo = .ok ([requestData], []) ∧
      requestData.Uri = a.endpoint ++ "?publisherId=" ++ Itoa ext.Bidder.PublisherID ∧
      Itoa ext.Bidder.PublisherID = Nat.repr ext.Bidder.PublisherID.toNat := by
  refine ⟨{ Method := "POST",
             Uri := a.endpoint ++ "?publisherId=" ++ Itoa ext.Bidder.PublisherID,
             Body := requestJSON, ImpIDs := GetImpIDs request.Imp }, ?_, rfl, ?_⟩
  · simp [MakeRequests, hImp, hMarshal, hLen, hExt, hPid, hPos]
  · cases hn : ext.Bidder.PublisherID with
    | ofNat n => simp [Itoa]
    | negSucc n => rw [hn] at hPos; exact absurd hPos (by simp [Int.negSucc_lt_zero])

/-- Instance of C2: the extension `{"bidder":{"publisherId":42}}` gives the Uri
ending in `?publisherId=42`. -/
theorem MakeRequests_uri_of_publisherID_witness :
    tableCodec.UnmarshalExt extPublisherID
        = .ok { Bidder := { Pid := "", PublisherID := 42 }, Tid := "" } ∧
    ∃ requestData : RequestData,
      MakeRequests tableCodec omsAdapter (requestWithExt extPublisherID) { PbsEntryPoint := "" }
        = .ok ([requestData], []) ∧
      requestData.Uri = "http://rt.marphezis.com/pbs?publisherId=42" ∧
      Itoa 42 = "42" :=
  ⟨rfl,
   MakeRequests_uri_of_publisherID tableCodec omsAdapter
     (requestWithExt extPublisherID) { PbsEntryPoint := "" }
     { ID := "imp-1", Ext := extPublisherID } [{ ID := "imp-2", Ext := extWrongShape }]
     (ascii "\x7b\"id\":\"auction-1\"\x7d")
     { Bidder := { Pid := "", PublisherID := 42 }, Tid := "" }
     rfl rfl (by decide) rfl rfl (by decide)⟩

/-- C3: for every bid request with at least one impression that serializes
successfully, if the extension of the first impression is absent or empty, or
it parses to a bidder object with an empty pid and an integer publisherId
that is zero or negative, then `MakeRequests` returns exactly one request and no
error, and the Uri of that request is the endpoint followed by `?publisherId=`
with nothing after it. -/
theorem MakeRequests_uri_empty_identifier (json : JsonCodec) (a : adapter)
    (request : BidRequest) (requestInfo : ExtraRequestInfo)
    (imp0 : Imp) (rest : List Imp) (requestJSON : Bytes)
    (hImp : request.Imp = imp0 :: rest)
    (hMarshal : json.Marshal request = .ok requestJSON)
    (hCase : imp0.Ext.length = 0 ∨
      ∃ ext : pbsExt, json.UnmarshalExt imp0.Ext = .ok ext ∧
        ext.Bidder.Pid = "" ∧ ext.Bidder.PublisherID ≤ 0) :
    ∃ requestData : RequestData,
      MakeRequests json a request requestInfo = .ok ([requestData], []) ∧
      requestData.Uri = a.endpoint ++ "?publisherId=" := by
  refine ⟨{ Method := "POST", Uri := a.endpoint ++ "?publisherId=",
             Body := requestJSON, ImpIDs := GetImpIDs request.Imp }, ?_, rfl⟩
  by_cases hLen : imp0.Ext.length > 0
  · rcases hCase with h0 | ⟨ext, hExt, hPid, hNonPos⟩
    · omega
    · have hNot : ¬ ext.Bidder.PublisherID > 0 := by omega
      simp [MakeRequests, hImp, hMarshal, hLen, hExt, hPid, hNot]
  · simp [MakeRequests, hImp, hMarshal, hLen]

/-- Instance of C3: an absent extension and the extension
`{"bidder":{"publisherId":-3}}` both give the Uri ending in `?publisherId=`. -/
theorem MakeRequests_uri_empty_identifier_witness :
    (∃ requestData : RequestData,
      MakeRequests tableCodec omsAdapter (requestWithExt []) { PbsEntryPoint := "" }
        = .ok ([requestData], []) ∧
      requestData.Uri = "http://rt.marphezis.com/pbs?publisherId=") ∧
    (∃ requestData : RequestData,
      MakeRequests tableCodec omsAdapter (requestWithExt extNegativeID) { PbsEntryPoint := "" }
        = .ok ([requestData], []) ∧
      requestData.Uri = "http://rt.marphezis.com/pbs?publisherId=") :=
  ⟨MakeRequests_uri_empty_identifier tableCodec omsAdapter
     (requestWithExt []) { PbsEntryPoint := "" }
     { ID := "imp-1", Ext := [] } [{ ID := "imp-2", Ext := extWrongShape }]
     (ascii "\x7b\"id\":\"auction-1\"\x7d") rfl rfl (Or.inl rfl),
   MakeRequests_uri_empty_identifier tableCodec omsAdapter
     (requestWithExt extNegativeID) { PbsEntryPoint := "" }
     { ID := "imp-1", Ext := extNegativeID } [{ ID := "imp-2", Ext := extWrongShape }]
     (ascii "\x7b\"id\":\"auction-1\"\x7d") rfl rfl
     (Or.inr ⟨{ Bidder := { Pid := "", PublisherID := -3 }, Tid := "" }, rfl, rfl, by decide⟩)⟩

/-- C4: for every bid request with at least one impression, `MakeRequests`
returns either one request and no error, or no request and exactly one error;
the error case occurs exactly when serialization of the request fails, or the
extension of the first impression is non-empty and fails to parse. -/
theorem MakeRequests_one_request_or_one_error (json : JsonCodec) (a : adapter)
    (request : BidRequest) (requestInfo : ExtraRequestInfo)
    (imp0 : Imp) (rest : List Imp)
    (hImp : request.Imp = imp0 :: rest) :
    ((∃ requestData : RequestData,
        MakeRequests json a request requestInfo = .ok ([requestData], [])) ∨
     (∃ err : GoError, MakeRequests json a request requestInfo = .ok ([], [err]))) ∧
    ((∃ err : GoError, MakeRequests json a request requestInfo = .ok ([], [err])) ↔
      ((∃ e : JsonError, json.Marshal request = .error e) ∨
       (imp0.Ext.length > 0 ∧ ∃ e : JsonError, json.UnmarshalExt imp0.Ext = .error e))) := by
  cases hMarshal : json.Marshal request with
  | error e => simp [MakeRequests, hMarshal]
  | ok requestJSON =>
    by_cases hLen : imp0.Ext.length > 0
    · cases hExt : json.UnmarshalExt imp0.Ext with
      | error e => simp [MakeRequests, hMarshal, hImp, hLen, hExt]
      | ok ext =>
        by_cases hId : ext.Bidder.Pid = "" ∧ ext.Bidder.PublisherID > 0
        · simp [MakeRequests, hMarshal, hImp, hLen, hExt, hId]
        · simp [MakeRequests, hMarshal, hImp, hLen, hExt, hId]
    · simp [MakeRequests, hMarshal, hImp, hLen]

/-- Instance of C4: an extension of the wrong shape on the first impression
gives no request and the one parse error. -/
theorem MakeRequests_one_request_or_one_error_witness :
    MakeRequests tableCodec omsAdapter (requestWithExt extWrongShape) { PbsEntryPoint := "" }
      = .ok ([], [GoError.json { msg := "cannot unmarshal" }]) ∧
    ((∃ err : GoError,
        MakeRequests tableCodec omsAdapter (requestWithExt extWrongShape) { PbsEntryPoint := "" }
          = .ok ([], [err])) ↔
      ((∃ e : JsonError, tableCodec.Marshal (requestWithExt extWrongShape) = .error e) ∨
       (extWrongShape.length > 0 ∧
          ∃ e : JsonError, tableCodec.UnmarshalExt extWrongShape = .error e))) :=
  ⟨rfl,
   (MakeRequests_one_request_or_one_error tableCodec omsAdapter
     (requestWithExt extWrongShape) { PbsEntryPoint := "" }
     { ID := "imp-1", Ext := extWrongShape } [{ ID := "imp-2", Ext := extWrongShape }] rfl).2⟩

/-- C5: for every bid request on which `MakeRequests` succeeds (it returns no
error), exactly one request is emitted; its Method is `POST`, its Body is the
serialization of the whole request, and its ImpIDs are the identifiers of all
impressions of the request in their original order, one per impression. -/
theorem MakeRequests_method_body_impIDs (json : JsonCodec) (a : adapter)
    (request : BidRequest) (requestInfo : ExtraRequestInfo) (requests : List RequestData)
    (hOk : MakeRequests json a request requestInfo = .ok (requests, [])) :
    ∃ requestData : RequestData,
      requests = [requestData] ∧
      requestData.Method = "POST" ∧
      json.Marshal request = .ok requestData.Body ∧
      requestData.ImpIDs = request.Imp.map Imp.ID ∧
      requestData.ImpIDs.length = request.Imp.length := by
  unfold MakeRequests at hOk
  cases hMarshal : json.Marshal request with
  | error e => simp [hMarshal] at hOk
  | ok requestJSON =>
    cases hImp : request.Imp with
    | nil => simp [hMarshal, hImp] at hOk
    | cons imp0 rest =>
      simp only [hMarshal, hImp, List.getElem?_cons_zero] at hOk
      split at hOk
      · simp at hOk
      · rename_i publisherID _
        simp only [Except.ok.injEq, Prod.mk.injEq, and_true] at hOk
        refine ⟨_, hOk.symm, rfl, rfl, ?_, ?_⟩
        · simp [GetImpIDs_eq_map]
        · simp [GetImpIDs_eq_map]

/-- Instance of C5: a request with two impressions yields both identifiers,
in order, and the serialized request as body. -/
theorem MakeRequests_method_body_impIDs_witness :
    ∃ requestData : RequestData,
      [requestDataFor "12345"] = [requestData] ∧
      requestData.Method = "POST" ∧
      tableCodec.Marshal (requestWithExt extPid) = .ok requestData.Body ∧
      requestData.ImpIDs = (requestWithExt extPid).Imp.map Imp.ID ∧
      requestData.ImpIDs.length = (requestWithExt extPid).Imp.length :=
  MakeRequests_method_body_impIDs tableCodec omsAdapter (requestWithExt extPid)
    { PbsEntryPoint := "" } [requestDataFor "12345"] rfl

/-! ## Response translation -/

/-- C6: for every request and every response body, decodable or not,
`MakeBids` on a response with status code 204 returns a nil bid response and
no errors. -/
theorem MakeBids_status_204 (json : JsonCodec) (a : adapter) (request : BidRequest)
    (requestData : RequestData) (body : Bytes) :
    MakeBids json a request requestData { StatusCode := 204, Body := body } = (none, []) := by
  simp [MakeBids, StatusNoContent]

/-- C7: for every request and every response body, `MakeBids` on a response
with status code 400 returns a nil bid response and exactly one error, of the
bad-input kind, carrying the fixed message. -/
theorem MakeBids_status_400 (json : JsonCodec) (a : adapter) (request : BidRequest)
    (requestData : RequestData) (body : Bytes) :
    MakeBids json a request requestData { StatusCode := 400, Body := body } =
      (none, [GoError.BadInput
        "Unexpected status code: 400. Bad request from publisher. Run with request.debug = 1 for more info."]) := by
  simp [MakeBids, StatusNoContent, StatusBadRequest]

/-- C8: for every status code s other than 200, 204 and 400, zero and
negative integers included, and every body, `MakeBids` returns a nil bid
response and exactly one error, of the bad-server-response kind, whose message
is `Unexpected status code: ` followed by the base-10 text of s and by
`. Run with request.debug = 1 for more info.`. -/
theorem MakeBids_status_unexpected (json : JsonCodec) (a : adapter) (request : BidRequest)
    (requestData : RequestData) (body : Bytes) (s : Int)
    (h200 : s ≠ 200) (h204 : s ≠ 204) (h400 : s ≠ 400) :
    MakeBids json a request requestData { StatusCode := s, Body := body } =
      (none, [GoError.BadServerResponse
        ("Unexpected status code: " ++ Itoa s ++ ". Run with request.debug = 1 for more info.")]) := by
  simp [MakeBids, StatusNoContent, StatusBadRequest, StatusOK, h200, h204, h400]

/-- Instance of C8: status 500 yields the message that mentions 500. -/
theorem MakeBids_status_unexpected_witness :
    MakeBids tableCodec omsAdapter (requestWithExt extPid) (requestDataFor "12345")
        { StatusCode := 500, Body := bodyThreeBids } =
      (none, [GoError.BadServerResponse
        "Unexpected status code: 500. Run with request.debug = 1 for more info."]) :=
  MakeBids_status_unexpected tableCodec omsAdapter (requestWithExt extPid)
    (requestDataFor "12345") bodyThreeBids 500 (by decide) (by decide) (by decide)

/-- C9: for every response with status 200 whose body decodes to an auction
response, `MakeBids` returns a bid response and no error; the Bid components
of its bid list are the concatenation, in order, of the bid sequences of the
seat-bid groups, each bid unchanged; its length is the sum of the bid counts
of the groups; and the same bid response is returned whatever the impression
sequence of the request is, so the length is not tied to the impression
count. -/
theorem MakeBids_bids_flatten (json : JsonCodec) (a : adapter) (request : BidRequest)
    (requestData : RequestData) (responseData : ResponseData) (response : BidResponse)
    (hStatus : responseData.StatusCode = 200)
    (hBody : json.UnmarshalBidResponse responseData.Body = .ok response) :
    ∃ bidResponse : BidderResponse,
      MakeBids json a request requestData responseData = (some bidResponse, []) ∧
      bidResponse.Bids.map TypedBid.Bid = (response.SeatBid.map SeatBid.Bid).flatten ∧
      bidResponse.Bids.length = (response.SeatBid.map (fun seatBid => seatBid.Bid.length)).sum ∧
      ∀ imps : List Imp,
        MakeBids json a { request with Imp := imps } requestData responseData
          = (some bidResponse, []) := by
  have hEval : ∀ r : BidRequest,
      MakeBids json a r requestData responseData =
        (some (response.SeatBid.foldl
          (fun bidResponse seatBid => seatBid.Bid.foldl appendBid bidResponse)
          (if len response.Cur = 0 then
            { NewBidderResponseWithBidsCapacity r.Imp.length with Currency := response.Cur }
           else NewBidderResponseWithBidsCapacity r.Imp.length)), []) := by
    intro r
    simp [MakeBids, hStatus, hBody, StatusNoContent, StatusBadRequest, StatusOK]
  refine ⟨_, hEval request, ?_, ?_, ?_⟩
  · rw [foldl_seatBid]
    split <;> simp [NewBidderResponseWithBidsCapacity, Function.comp_def]
  · rw [foldl_seatBid]
    split <;> simp [NewBidderResponseWithBidsCapacity, List.length_flatten, Function.comp_def]
  · intro imps
    rw [hEval]
    simp [NewBidderResponseWithBidsCapacity]

/-- Instance of C9: a body with seat-bid groups of two and one bids, answered
to a request with two impressions, yields the three bids a, b, c in that
order. -/
theorem MakeBids_bids_flatten_witness :
    ∃ bidResponse : BidderResponse,
      MakeBids tableCodec omsAdapter (requestWithExt extPid) (requestDataFor "12345")
          { StatusCode := 200, Body := bodyThreeBids } = (some bidResponse, []) ∧
      bidResponse.Bids.map TypedBid.Bid = (responseThreeBids.SeatBid.map SeatBid.Bid).flatten ∧
      bidResponse.Bids.length
        = (responseThreeBids.SeatBid.map (fun seatBid => seatBid.Bid.length)).sum ∧
      ∀ imps : List Imp,
        MakeBids tableCodec omsAdapter { requestWithExt extPid with Imp := imps }
            (requestDataFor "12345") { StatusCode := 200, Body := bodyThreeBids }
          = (some bidResponse, []) :=
  MakeBids_bids_flatten tableCodec omsAdapter (requestWithExt extPid) (requestDataFor "12345")
    { StatusCode := 200, Body := bodyThreeBids } responseThreeBids rfl rfl

/-- C10: for every markup type value m, `getBidType m` is Video if and only if
m is the video markup type 2, and is Banner if and only if m is anything else;
the function is total, so it never fails and returns no other bid type. -/
theorem getBidType_video_iff (m : MarkupType) :
    (getBidType m = BidTypeVideo ↔ m = 2) ∧
    (getBidType m = BidTypeBanner ↔ m ≠ 2) ∧
    (getBidType m = BidTypeVideo ∨ getBidType m = BidTypeBanner) ∧
    MarkupVideo = 2 := by
  have hne : BidTypeBanner ≠ BidTypeVideo := by decide
  by_cases h : m = 2
  · simp [getBidType, MarkupVideo, h, hne.symm]
  · simp [getBidType, MarkupVideo, h, hne]

/-- C12: every typed bid of every bid response returned by `MakeBids` has a
BidVideo exactly when its BidType is Video, which holds exactly when the
markup type of its bid is video (2); for a bid of any other markup type,
whatever its category list and duration, BidType is Banner and BidVideo is
absent (nil), not an empty record. -/
theorem MakeBids_bidVideo_iff_video (json : JsonCodec) (a : adapter) (request : BidRequest)
    (requestData : RequestData) (responseData : ResponseData)
    (bidResponse : BidderResponse) (errs : List GoError) (typedBid : TypedBid)
    (hRet : MakeBids json a request requestData responseData = (some bidResponse, errs))
    (hMem : typedBid ∈ bidResponse.Bids) :
    (typedBid.BidVideo.isSome = true ↔ typedBid.BidType = BidTypeVideo) ∧
    (typedBid.BidType = BidTypeVideo ↔ typedBid.Bid.MType = 2) ∧
    (typedBid.Bid.MType ≠ 2 →
      typedBid.BidType = BidTypeBanner ∧ typedBid.BidVideo = none ∧
      typedBid.BidVideo ≠ some { Duration := 0, PrimaryCategory := "" }) := by
  obtain ⟨hStatus, response, hBody⟩ :=
    MakeBids_some_inv json a request requestData responseData bidResponse errs hRet
  rw [MakeBids_decoded json a request requestData responseData response hStatus hBody] at hRet
  simp only [Prod.mk.injEq, Option.some.injEq] at hRet
  obtain ⟨hEq, -⟩ := hRet
  subst hEq
  simp only [List.mem_map] at hMem
  obtain ⟨bid, -, rfl⟩ := hMem
  have hne : BidTypeBanner ≠ BidTypeVideo := by decide
  by_cases h : bid.MType = 2
  · simp [getBidType, getBidVideo, MarkupVideo, h]
  · simp [getBidType, getBidVideo, MarkupVideo, h, hne]

/-- Instance of C12: the banner bid of `bodyBanner`, which declares a duration
of 15 and the category IAB2, is typed Banner with no BidVideo. -/
theorem MakeBids_bidVideo_iff_video_witness :
    MakeBids tableCodec omsAdapter (requestWithExt extPid) (requestDataFor "12345")
        { StatusCode := 200, Body := bodyBanner }
      = (some { Currency := "",
                Bids := [{ Bid := bidBanner, BidType := BidTypeBanner, BidVideo := none }] }, []) ∧
    (bidBanner.MType ≠ 2 →
      BidTypeBanner = BidTypeBanner ∧ (none : Option ExtBidPrebidVideo) = none ∧
      (none : Option ExtBidPrebidVideo) ≠ some { Duration := 0, PrimaryCategory := "" }) :=
  ⟨by decide,
   (MakeBids_bidVideo_iff_video tableCodec omsAdapter (requestWithExt extPid)
     (requestDataFor "12345") { StatusCode := 200, Body := bodyBanner }
     { Currency := "",
       Bids := [{ Bid := bidBanner, BidType := BidTypeBanner, BidVideo := none }] } []
     { Bid := bidBanner, BidType := BidTypeBanner, BidVideo := none }
     (by decide) (by decide)).2.2⟩

/-- C13: for every status-200 response whose body decodes, the Currency of the
bid response returned by `MakeBids` is the empty string: when the parsed cur is
non-empty (USD, EUR) the Currency stays unset and is not the parsed value, and
when the parsed cur is empty the Currency is that empty string. -/
theorem MakeBids_currency_unset (json : JsonCodec) (a : adapter) (request : BidRequest)
    (requestData : RequestData) (responseData : ResponseData) (response : BidResponse)
    (hStatus : responseData.StatusCode = 200)
    (hBody : json.UnmarshalBidResponse responseData.Body = .ok response) :
    ∃ bidResponse : BidderResponse,
      MakeBids json a request requestData responseData = (some bidResponse, []) ∧
      bidResponse.Currency = "" ∧
      (response.Cur ≠ "" → bidResponse.Currency ≠ response.Cur) ∧
      (response.Cur = "" → bidResponse.Currency = response.Cur) := by
  refine ⟨_, MakeBids_decoded json a request requestData responseData response hStatus hBody,
    ?_, ?_, ?_⟩
  · by_cases hCur : len response.Cur = 0
    · simp [hCur, (len_eq_zero_iff response.Cur).mp hCur]
    · simp [hCur]
  · intro hNe
    have hCur : ¬ len response.Cur = 0 := fun h => hNe ((len_eq_zero_iff response.Cur).mp h)
    simpa [hCur] using Ne.symm hNe
  · intro hEmpty
    simp [hEmpty]

/-- Instance of C13: the body with `"cur":"USD"` and the body with no cur both
yield a bid response whose Currency is the empty string. -/
theorem MakeBids_currency_unset_witness :
    (responseThreeBids.Cur = "USD" ∧
      ∃ bidResponse : BidderResponse,
        MakeBids tableCodec omsAdapter (requestWithExt extPid) (requestDataFor "12345")
            { StatusCode := 200, Body := bodyThreeBids } = (some bidResponse, []) ∧
        bidResponse.Currency = "" ∧
        (responseThreeBids.Cur ≠ "" → bidResponse.Currency ≠ responseThreeBids.Cur) ∧
        (responseThreeBids.Cur = "" → bidResponse.Currency = responseThreeBids.Cur)) ∧
    (responseBanner.Cur = "" ∧
      ∃ bidResponse : BidderResponse,
        MakeBids tableCodec omsAdapter (requestWithExt extPid) (requestDataFor "12345")
            { StatusCode := 200, Body := bodyBanner } = (some bidResponse, []) ∧
        bidResponse.Currency = "" ∧
        (responseBanner.Cur ≠ "" → bidResponse.Currency ≠ responseBanner.Cur) ∧
        (responseBanner.Cur = "" → bidResponse.Currency = responseBanner.Cur)) :=
  ⟨⟨rfl, MakeBids_currency_unset tableCodec omsAdapter (requestWithExt extPid)
      (requestDataFor "12345") { StatusCode := 200, Body := bodyThreeBids }
      responseThreeBids rfl rfl⟩,
   ⟨rfl, MakeBids_currency_unset tableCodec omsAdapter (requestWithExt extPid)
      (requestDataFor "12345") { StatusCode := 200, Body := bodyBanner }
      responseBanner rfl rfl⟩⟩

/-- C14: for every request and every response whose status code is not 204,
`MakeBids` returns either a non-nil bid response with no error, or a nil bid
response with exactly one error, and never both; for status 200 the result is
non-nil exactly when the body decodes, and a body that does not decode yields
nil with the one decoding error. -/
theorem MakeBids_result_xor_error (json : JsonCodec) (a : adapter) (request : BidRequest)
    (requestData : RequestData) (responseData : ResponseData)
    (hNot204 : responseData.StatusCode ≠ 204) :
    ((∃ bidResponse : BidderResponse,
        MakeBids json a request requestData responseData = (some bidResponse, [])) ∨
     (∃ err : GoError, MakeBids json a request requestData responseData = (none, [err]))) ∧
    ¬ ((∃ bidResponse : BidderResponse,
        MakeBids json a request requestData responseData = (some bidResponse, [])) ∧
       (∃ err : GoError, MakeBids json a request requestData responseData = (none, [err]))) ∧
    (responseData.StatusCode = 200 →
      ((∃ bidResponse : BidderResponse,
          MakeBids json a request requestData responseData = (some bidResponse, [])) ↔
        ∃ response : BidResponse,
          json.UnmarshalBidResponse responseData.Body = .ok response) ∧
      (∀ e : JsonError, json.UnmarshalBidResponse responseData.Body = .error e →
        MakeBids json a request requestData responseData = (none, [GoError.json e]))) := by
  refine ⟨?_, ?_, ?_⟩
  · by_cases h400 : responseData.StatusCode = 400
    · right
      exact ⟨GoError.BadInput
        "Unexpected status code: 400. Bad request from publisher. Run with request.debug = 1 for more info.",
        by simp [MakeBids, StatusNoContent, StatusBadRequest, h400]⟩
    · by_cases h200 : responseData.StatusCode = 200
      · cases hBody : json.UnmarshalBidResponse responseData.Body with
        | error e =>
          right
          exact ⟨GoError.json e,
            by simp [MakeBids, StatusNoContent, StatusBadRequest, StatusOK, h200, hBody]⟩
        | ok response =>
          left
          exact ⟨_, MakeBids_decoded json a request requestData responseData response h200 hBody⟩
      · right
        exact ⟨GoError.BadServerResponse
          ("Unexpected status code: " ++ Itoa responseData.StatusCode ++
            ". Run with request.debug = 1 for more info."),
          by simp [MakeBids, StatusNoContent, StatusBadRequest, StatusOK, hNot204, h400, h200]⟩
  · rintro ⟨⟨bidResponse, hSome⟩, ⟨err, hNone⟩⟩
    rw [hSome] at hNone
    simp at hNone
  · intro h200
    refine ⟨⟨?_, ?_⟩, ?_⟩
    · rintro ⟨bidResponse, hSome⟩
      exact (MakeBids_some_inv json a request requestData responseData bidResponse [] hSome).2
    · rintro ⟨response, hBody⟩
      exact ⟨_, MakeBids_decoded json a request requestData responseData response h200 hBody⟩
    · intro e hBody
      simp [MakeBids, StatusNoContent, StatusBadRequest, StatusOK, h200, hBody]

/-- Instance of C14: a status-200 response whose body is the two octets `{]`
yields nil and the one decoding error. -/
theorem MakeBids_result_xor_error_witness :
    MakeBids tableCodec omsAdapter (requestWithExt extPid) (requestDataFor "12345")
        { StatusCode := 200, Body := [123, 93] }
      = (none, [GoError.json { msg := "cannot unmarshal" }]) :=
  (MakeBids_result_xor_error tableCodec omsAdapter (requestWithExt extPid)
    (requestDataFor "12345") { StatusCode := 200, Body := [123, 93] } (by decide)).2.2 rfl
    |>.2 { msg := "cannot unmarshal" } rfl

/-- C16: `MakeBids` is deterministic and leaves its inputs unchanged.  On every
heap that holds an adapter, a request, request data and a response at the
addresses passed to `MakeBids`, a first call returns and a second call on the
heap that the first one left returns as well; neither call changes any object
that existed before it, so the adapter, the request, the request data and the
response are what they were; the two calls return the same nil-ness, the same
errors and the same bid response (currency and bid list, with bid types and
video records); the result of the first call is still intact after the second;
and both are the result of the function `MakeBids` on the four input values. -/
theorem MakeBidsHeap_deterministic (json : JsonCodec) (heap : Heap)
    (a request requestData responseData : Nat)
    (av : adapter) (req : BidRequest) (rdv : RequestData) (rd : ResponseData)
    (hAdapter : heap[a]? = some (Cell.adapter av))
    (hRequest : heap[request]? = some (Cell.bidRequest req))
    (hRequestData : heap[requestData]? = some (Cell.requestData rdv))
    (hResponse : heap[responseData]? = some (Cell.responseData rd)) :
    ∃ (ptr1 ptr2 : Option Nat) (errs1 errs2 : List GoError) (heap1 heap2 : Heap),
      MakeBidsHeap json heap a request requestData responseData
        = some ((ptr1, errs1), heap1) ∧
      MakeBidsHeap json heap1 a request requestData responseData
        = some ((ptr2, errs2), heap2) ∧
      (∀ q : Nat, q < heap.length → heap1[q]? = heap[q]?) ∧
      (∀ q : Nat, q < heap1.length → heap2[q]? = heap1[q]?) ∧
      (heap2[a]? = some (Cell.adapter av) ∧
        heap2[request]? = some (Cell.bidRequest req) ∧
        heap2[requestData]? = some (Cell.requestData rdv) ∧
        heap2[responseData]? = some (Cell.responseData rd)) ∧
      ptr2.isSome = ptr1.isSome ∧
      errs2 = errs1 ∧
      loadBidderResponse heap2 ptr2 = loadBidderResponse heap1 ptr1 ∧
      loadBidderResponse heap2 ptr1 = loadBidderResponse heap1 ptr1 ∧
      (loadBidderResponse heap1 ptr1, errs1) = MakeBids json av req rdv rd := by
  have hLt : ∀ (p : Nat) (c : Cell), heap[p]? = some c → p < heap.length := by
    intro p c h
    by_contra hge
    simp [List.getElem?_eq_none (Nat.le_of_not_lt hge)] at h
  obtain ⟨ptr1, heap1, hRun1, hLoad1, hNil1, hLen1, hOld1⟩ :=
    MakeBidsHeap_eval json heap a request requestData responseData av req rdv rd
      hRequest hResponse
  have hRequest1 : heap1[request]? = some (Cell.bidRequest req) := by
    rw [hOld1 request (hLt _ _ hRequest), hRequest]
  have hResponse1 : heap1[responseData]? = some (Cell.responseData rd) := by
    rw [hOld1 responseData (hLt _ _ hResponse), hResponse]
  obtain ⟨ptr2, heap2, hRun2, hLoad2, hNil2, hLen2, hOld2⟩ :=
    MakeBidsHeap_eval json heap1 a request requestData responseData av req rdv rd
      hRequest1 hResponse1
  have hKeep : ∀ (p : Nat) (c : Cell), heap[p]? = some c → heap2[p]? = some c := by
    intro p c h
    have hp : p < heap.length := hLt p c h
    rw [hOld2 p (by omega), hOld1 p hp, h]
  refine ⟨ptr1, ptr2, _, _, heap1, heap2, hRun1, hRun2, hOld1, hOld2,
    ⟨hKeep _ _ hAdapter, hKeep _ _ hRequest, hKeep _ _ hRequestData, hKeep _ _ hResponse⟩,
    by rw [hNil2, hNil1], rfl, by rw [hLoad2, hLoad1], ?_, by rw [hLoad1]⟩
  cases hp : ptr1 with
  | none => rfl
  | some p =>
    have hSome : (loadBidderResponse heap1 (some p)).isSome = true := by
      rw [← hp, hLoad1, ← hNil1, hp]
      rfl
    have hpLt : p < heap1.length := by
      by_contra hge
      simp [loadBidderResponse, List.getElem?_eq_none (Nat.le_of_not_lt hge)] at hSome
    simp only [loadBidderResponse, hOld2 p hpLt]

/-- Instance of C16: on the heap that holds the adapter, the request with two
impressions, its request data and a status-200 response with the three-bid
body, the first call allocates the decoded response at address 4 and returns
the pointer 5, and the second call returns the pointer 7 to an equal bid
response, next to the four unchanged inputs. -/
theorem MakeBidsHeap_deterministic_witness :
    ∃ (ptr1 ptr2 : Option Nat) (errs1 errs2 : List GoError) (heap1 heap2 : Heap),
      MakeBidsHeap tableCodec (heapWithBody bodyThreeBids) 0 1 2 3
        = some ((ptr1, errs1), heap1) ∧
      MakeBidsHeap tableCodec heap1 0 1 2 3 = some ((ptr2, errs2), heap2) ∧
      (∀ q : Nat, q < (heapWithBody bodyThreeBids).length →
        heap1[q]? = (heapWithBody bodyThreeBids)[q]?) ∧
      (∀ q : Nat, q < heap1.length → heap2[q]? = heap1[q]?) ∧
      (heap2[0]? = some (Cell.adapter omsAdapter) ∧
        heap2[1]? = some (Cell.bidRequest (requestWithExt extPid)) ∧
        heap2[2]? = some (Cell.requestData (requestDataFor "12345")) ∧
        heap2[3]? = some (Cell.responseData { StatusCode := 200, Body := bodyThreeBids })) ∧
      ptr2.isSome = ptr1.isSome ∧
      errs2 = errs1 ∧
      loadBidderResponse heap2 ptr2 = loadBidderResponse heap1 ptr1 ∧
      loadBidderResponse heap2 ptr1 = loadBidderResponse heap1 ptr1 ∧
      (loadBidderResponse heap1 ptr1, errs1)
        = MakeBids tableCodec omsAdapter (requestWithExt extPid) (requestDataFor "12345")
            { StatusCode := 200, Body := bodyThreeBids } :=
  MakeBidsHeap_deterministic tableCodec (heapWithBody bodyThreeBids) 0 1 2 3
    omsAdapter (requestWithExt extPid) (requestDataFor "12345")
    { StatusCode := 200, Body := bodyThreeBids } rfl rfl rfl rfl

/-! ## What the operations depend on -/

/-- C17: `MakeRequests` reads the extension of the first impression only: two
serializable bid requests with non-empty impression sequences whose first
impressions carry the same extension payload get the same errors and requests
with the same Uri, whatever the later impressions and their extensions are;
so an extension of a later impression neither causes an error nor reaches the
Uri. -/
theorem MakeRequests_first_ext_only (json : JsonCodec) (a : adapter)
    (request1 request2 : BidRequest) (requestInfo1 requestInfo2 : ExtraRequestInfo)
    (imp1 imp2 : Imp) (rest1 rest2 : List Imp) (requestJSON1 requestJSON2 : Bytes)
    (hImp1 : request1.Imp = imp1 :: rest1)
    (hImp2 : request2.Imp = imp2 :: rest2)
    (hExt : imp1.Ext = imp2.Ext)
    (hMarshal1 : json.Marshal request1 = .ok requestJSON1)
    (hMarshal2 : json.Marshal request2 = .ok requestJSON2) :
    ∃ (requests1 requests2 : List RequestData) (errs : List GoError),
      MakeRequests json a request1 requestInfo1 = .ok (requests1, errs) ∧
      MakeRequests json a request2 requestInfo2 = .ok (requests2, errs) ∧
      requests1.map RequestData.Uri = requests2.map RequestData.Uri ∧
      requests1.length = requests2.length := by
  by_cases hLen : imp2.Ext.length > 0
  · cases hParse : json.UnmarshalExt imp2.Ext with
    | error e =>
      exact ⟨[], [], [GoError.json e],
        by simp [MakeRequests, hImp1, hMarshal1, hExt, hLen, hParse],
        by simp [MakeRequests, hImp2, hMarshal2, hLen, hParse], rfl, rfl⟩
    | ok ext =>
      by_cases hId : ext.Bidder.Pid = "" ∧ ext.Bidder.PublisherID > 0
      · exact ⟨[{ Method := "POST",
                   Uri := a.endpoint ++ "?publisherId=" ++ Itoa ext.Bidder.PublisherID,
                   Body := requestJSON1, ImpIDs := GetImpIDs request1.Imp }],
               [{ Method := "POST",
                   Uri := a.endpoint ++ "?publisherId=" ++ Itoa ext.Bidder.PublisherID,
                   Body := requestJSON2, ImpIDs := GetImpIDs request2.Imp }], [],
          by simp [MakeRequests, hImp1, hMarshal1, hExt, hLen, hParse, hId],
          by simp [MakeRequests, hImp2, hMarshal2, hLen, hParse, hId], rfl, rfl⟩
      · exact ⟨[{ Method := "POST",
                   Uri := a.endpoint ++ "?publisherId=" ++ ext.Bidder.Pid,
                   Body := requestJSON1, ImpIDs := GetImpIDs request1.Imp }],
               [{ Method := "POST",
                   Uri := a.endpoint ++ "?publisherId=" ++ ext.Bidder.Pid,
                   Body := requestJSON2, ImpIDs := GetImpIDs request2.Imp }], [],
          by simp [MakeRequests, hImp1, hMarshal1, hExt, hLen, hParse, hId],
          by simp [MakeRequests, hImp2, hMarshal2, hLen, hParse, hId], rfl, rfl⟩
  · exact ⟨[{ Method := "POST", Uri := a.endpoint ++ "?publisherId=" ++ "",
               Body := requestJSON1, ImpIDs := GetImpIDs request1.Imp }],
           [{ Method := "POST", Uri := a.endpoint ++ "?publisherId=" ++ "",
               Body := requestJSON2, ImpIDs := GetImpIDs request2.Imp }], [],
      by simp [MakeRequests, hImp1, hMarshal1, hExt, hLen],
      by simp [MakeRequests, hImp2, hMarshal2, hLen], rfl, rfl⟩

/-- Instance of C17: the same first extension with a second impression of the
wrong shape, and with a second impression that carries a pid, gives the same
Uri and no error both times. -/
theorem MakeRequests_first_ext_only_witness :
    ∃ (requests1 requests2 : List RequestData) (errs : List GoError),
      MakeRequests tableCodec omsAdapter (requestWithExt extPublisherID) { PbsEntryPoint := "" }
        = .ok (requests1, errs) ∧
      MakeRequests tableCodec omsAdapter (requestWithExtOther extPublisherID)
        { PbsEntryPoint := "" } = .ok (requests2, errs) ∧
      requests1.map RequestData.Uri = requests2.map RequestData.Uri ∧
      requests1.length = requests2.length :=
  MakeRequests_first_ext_only tableCodec omsAdapter
    (requestWithExt extPublisherID) (requestWithExtOther extPublisherID)
    { PbsEntryPoint := "" } { PbsEntryPoint := "" }
    { ID := "imp-1", Ext := extPublisherID } { ID := "imp-1", Ext := extPublisherID }
    [{ ID := "imp-2", Ext := extWrongShape }]
    [{ ID := "imp-2", Ext := extPid }, { ID := "imp-3", Ext := [] }]
    (ascii "\x7b\"id\":\"auction-1\"\x7d") (ascii "\x7b\"id\":\"auction-2\"\x7d")
    rfl rfl rfl rfl rfl

/-- C18: for every bid request with at least one impression the read of the
first impression is in range and `MakeRequests` returns a value, never a fault;
for a request with no impression, `MakeRequests` faults with an out-of-range
read exactly when serialization succeeds, and when serialization fails it
returns the serialization error without reading any impression. -/
theorem MakeRequests_faults_iff (json : JsonCodec) (a : adapter) (request : BidRequest)
    (requestInfo : ExtraRequestInfo) :
    (request.Imp ≠ [] →
      (∃ imp0 : Imp, request.Imp[0]? = some imp0) ∧
      ∃ result : List RequestData × List GoError,
        MakeRequests json a request requestInfo = .ok result) ∧
    (request.Imp = [] →
      ((∃ fault : Panic, MakeRequests json a request requestInfo = .error fault) ↔
        ∃ requestJSON : Bytes, json.Marshal request = .ok requestJSON) ∧
      (∀ requestJSON : Bytes, json.Marshal request = .ok requestJSON →
        MakeRequests json a request requestInfo = .error (Panic.indexOutOfRange 0 0)) ∧
      (∀ e : JsonError, json.Marshal request = .error e →
        MakeRequests json a request requestInfo = .ok ([], [GoError.json e]))) := by
  constructor
  · intro hNe
    obtain ⟨imp0, rest, hImp⟩ := List.exists_cons_of_ne_nil hNe
    refine ⟨⟨imp0, by simp [hImp]⟩, ?_⟩
    rcases (MakeRequests_one_request_or_one_error_aux json a request requestInfo imp0 rest hImp)
      with ⟨requestData, h⟩ | ⟨err, h⟩
    · exact ⟨_, h⟩
    · exact ⟨_, h⟩
  · intro hNil
    cases hMarshal : json.Marshal request with
    | error e => simp [MakeRequests, hMarshal]
    | ok requestJSON => simp [MakeRequests, hMarshal, hNil]

/-- Instance of C18: the serializable request with no impression faults, and
the request with two impressions returns. -/
theorem MakeRequests_faults_iff_witness :
    MakeRequests tableCodec omsAdapter requestNoImp { PbsEntryPoint := "" }
      = .error (Panic.indexOutOfRange 0 0) ∧
    MakeRequests tableCodec omsAdapter { ID := "", Imp := [] } { PbsEntryPoint := "" }
      = .ok ([], [GoError.json { msg := "json: unsupported value" }]) ∧
    ∃ result : List RequestData × List GoError,
      MakeRequests tableCodec omsAdapter (requestWithExt extPid) { PbsEntryPoint := "" }
        = .ok result :=
  ⟨((MakeRequests_faults_iff tableCodec omsAdapter requestNoImp { PbsEntryPoint := "" }).2
      rfl).2.1 (ascii "\x7b\"id\":\"auction-3\"\x7d") rfl,
   ((MakeRequests_faults_iff tableCodec omsAdapter { ID := "", Imp := [] }
      { PbsEntryPoint := "" }).2 rfl).2.2 { msg := "json: unsupported value" } rfl,
   ((MakeRequests_faults_iff tableCodec omsAdapter (requestWithExt extPid)
      { PbsEntryPoint := "" }).1 (by decide)).2⟩

/-- C19: the resolved identifier is put into the Uri verbatim, with no
escaping and no validation: for every endpoint e and every non-empty pid p,
whatever characters they hold, the emitted Uri is the concatenation of e,
`?publisherId=` and p, character for character, and the `?publisherId=`
separator is appended also when e already has a query string. -/
theorem MakeRequests_uri_verbatim (json : JsonCodec) (e p : String)
    (request : BidRequest) (requestInfo : ExtraRequestInfo)
    (imp0 : Imp) (rest : List Imp) (requestJSON : Bytes) (ext : pbsExt)
    (hImp : request.Imp = imp0 :: rest)
    (hMarshal : json.Marshal request = .ok requestJSON)
    (hLen : imp0.Ext.length > 0)
    (hExt : json.UnmarshalExt imp0.Ext = .ok ext)
    (hPid : ext.Bidder.Pid = p)
    (hNonEmpty : p ≠ "") :
    ∃ requestData : RequestData,
      MakeRequests json { endpoint := e } request requestInfo = .ok ([requestData], []) ∧
      requestData.Uri = e ++ "?publisherId=" ++ p ∧
      requestData.Uri.toList = e.toList ++ "?publisherId=".toList ++ p.toList ∧
      requestData.Uri.length = e.length + 13 + p.length := by
  subst hPid
  refine ⟨{ Method := "POST", Uri := e ++ "?publisherId=" ++ ext.Bidder.Pid,
             Body := requestJSON, ImpIDs := GetImpIDs request.Imp }, ?_, rfl, ?_, ?_⟩
  · simp [MakeRequests, hImp, hMarshal, hLen, hExt, hNonEmpty]
  · simp [String.toList]
  · simp [String.length_append]
    rfl

/-- Instance of C19: an endpoint that already has a query string and a pid
holding `&`, `=`, `#`, `?`, a space and a non-ASCII letter. -/
theorem MakeRequests_uri_verbatim_witness :
    ∃ requestData : RequestData,
      MakeRequests tableCodec { endpoint := "http://rt.marphezis.com/pbs?src=1" }
          (requestWithExt extSpecialPid) { PbsEntryPoint := "" }
        = .ok ([requestData], []) ∧
      requestData.Uri = "http://rt.marphezis.com/pbs?src=1?publisherId=a&b=c#d?e fé" ∧
      requestData.Uri.toList
        = "http://rt.marphezis.com/pbs?src=1".toList ++ "?publisherId=".toList ++
            "a&b=c#d?e fé".toList ∧
      requestData.Uri.length = "http://rt.marphezis.com/pbs?src=1".length + 13 +
        "a&b=c#d?e fé".length :=
  MakeRequests_uri_verbatim tableCodec "http://rt.marphezis.com/pbs?src=1" "a&b=c#d?e fé"
    (requestWithExt extSpecialPid) { PbsEntryPoint := "" }
    { ID := "imp-1", Ext := extSpecialPid } [{ ID := "imp-2", Ext := extWrongShape }]
    (ascii "\x7b\"id\":\"auction-1\"\x7d")
    { Bidder := { Pid := "a&b=c#d?e fé", PublisherID := 0 }, Tid := "" }
    rfl rfl (by decide) rfl rfl (by decide)

/-- C20: the result of `MakeBids` does not depend on the bid request or on the
outbound request data: for every response and any two requests, with any
impression counts, and any two request-data values, `MakeBids` returns the same
pair, hence the same nil-ness, errors, currency and bid list; the impression
count of the request only feeds the capacity hint. -/
theorem MakeBids_independent_of_request (json : JsonCodec) (a : adapter)
    (request1 request2 : BidRequest) (requestData1 requestData2 : RequestData)
    (responseData : ResponseData) :
    MakeBids json a request1 requestData1 responseData
      = MakeBids json a request2 requestData2 responseData ∧
    (∀ n : Nat, NewBidderResponseWithBidsCapacity n
      = NewBidderResponseWithBidsCapacity request1.Imp.length) := by
  constructor
  · simp only [MakeBids, NewBidderResponseWithBidsCapacity]
  · intro n
    rfl

end OMS
